import Mathlib

/-!
Verification of the truehdd TrueHD (MLP) bitstream processor core.

This file gives a shallow embedding, in Lean 4, of the parts of the
`truehd` crate relevant to the checked claims: the presentation map
(`src/truehd/src/process/mod.rs`), the frame extractor
(`src/truehd/src/process/extract.rs`), the substream-segment block loop
(`src/truehd/src/structs/substream.rs`), the restart-header sync-word
validation (`src/truehd/src/structs/restart_header.rs`), the per-sample
Huffman residual decode (`src/truehd/src/structs/block.rs`), and the
decoder's zero-sample bookkeeping, presentation resolution and 0x31EA
lossless-matrix kernel (`src/truehd/src/process/decode.rs`).

Machine integers are modelled with `Nat`/`Int` plus explicit two's
complement wrapping where the Rust code can overflow.  Fallible code
returns `Except`; a Rust panic (array index out of bounds, or the
`panic!` branch of `From<u16> for RestartSyncWord`) is modelled by a
dedicated error constructor so it is distinguishable from a returned
`Err`.
-/

namespace TrueHd

/-! ## Two's complement helpers -/

/-- Interpret the low 8 bits of a natural number as a signed byte
(`as i8` on a value already < 256 after truncation). -/
def toSigned8 (n : Nat) : Int :=
  if n % 256 < 128 then ((n % 256 : Nat) : Int) else ((n % 256 : Nat) : Int) - 256

/-- Wrap an unbounded integer into `i32` two's complement range. -/
def wrap32 (x : Int) : Int :=
  (x + 2 ^ 31) % 2 ^ 32 - 2 ^ 31

/-- Wrap an unbounded integer into `i64` two's complement range. -/
def wrap64 (x : Int) : Int :=
  (x + 2 ^ 63) % 2 ^ 64 - 2 ^ 63

/-- Arithmetic shift right on a two's complement value: floor division
by `2 ^ n` (this is exactly `>>` on Rust signed integers). -/
def sar (x : Int) (n : Nat) : Int :=
  Int.fdiv x (2 ^ n)

/-- Clear the low `q` bits of a two's complement value: Rust's
`x & !((1 << q) - 1)` on a signed integer. -/
def clearLowBits (q : Nat) (x : Int) : Int :=
  Int.fdiv x (2 ^ q) * 2 ^ q

/-! ## Presentation map (`src/truehd/src/process/mod.rs`) -/

/-- `MAX_PRESENTATIONS` from `process/mod.rs`. -/
def MAX_PRESENTATIONS : Nat := 4

/-- `PresentationType` from `process/mod.rs`. -/
inductive PresentationType where
  | Invalid : PresentationType
  | CopyOf : Nat → PresentationType
  | DownmixOf : Nat → PresentationType
  | Independent : PresentationType
  deriving DecidableEq, Repr

/-- `PresentationMap` from `process/mod.rs`: a 4-entry table of
substream masks. -/
structure PresentationMap where
  masks : List Nat
  deriving DecidableEq, Repr

namespace PresentationMap

/-- `PresentationMap::with_substream_info`. -/
def with_substream_info (substream_info extended_substream_info : Nat) : PresentationMap :=
  { masks := [
      1,
      (substream_info >>> 2) &&& 3,
      (substream_info >>> 4) &&& 7,
      ((substream_info >>> 4) &&& 8) ||| (7 ^^^ (7 >>> (extended_substream_info &&& 3)))] }

/-- `PresentationMap::presentation_type_by_index`. -/
def presentation_type_by_index (m : PresentationMap) (index : Nat) : PresentationType :=
  if index ≥ m.masks.length then .Invalid
  else
    let this_mask := m.masks.getD index 0
    if this_mask >>> index ≠ 0 then
      match (List.range' (index + 1) (m.masks.length - (index + 1))).find?
          (fun i => m.masks.getD i 0 >>> i ≠ 0 ∧ (m.masks.getD i 0 >>> index) &&& 1 ≠ 0) with
      | some down_i => .DownmixOf down_i
      | none => .Independent
    else
      match (List.range index).reverse.find? (fun i => this_mask >>> i ≠ 0) with
      | some copy_i => .CopyOf copy_i
      | none => .Invalid

/-- `PresentationMap::max_independent_presentation`. -/
def max_independent_presentation (m : PresentationMap) : Option Nat :=
  ((m.masks.enum.reverse).find? (fun p => p.2 >>> p.1 ≠ 0)).map (fun p => p.1)

/-- `PresentationMap::substream_mask_by_required_presentations`. -/
def substream_mask_by_required_presentations (m : PresentationMap)
    (required : List Bool) : Nat :=
  (required.enum).foldl
    (fun mask p => if p.2 then mask ||| m.masks.getD p.1 0 else mask) 0

end PresentationMap

/-! ## Extractor (`src/truehd/src/process/extract.rs`) -/

/-- `ExtractError` from `utils/errors.rs`. -/
inductive ExtractError where
  | SubstreamMismatch (found expected : Nat)
  | ParityCheckFailed
  | InsufficientData
  | InvalidSyncPattern
  deriving DecidableEq, Repr

/-- One round of the `crc16` const fn from `utils/crc.rs`
(`value = (value << 1) ^ (((value >> 15) & 1) * poly)` in `u16`). -/
def crc16round (poly value : Nat) : Nat :=
  ((value <<< 1) ^^^ (((value >>> 15) &&& 1) * poly)) &&& 0xFFFF

/-- Iterate `crc16round`. -/
def crc16rounds (poly : Nat) : Nat → Nat → Nat
  | 0, value => value
  | n + 1, value => crc16rounds poly n (crc16round poly value)

/-- `crc16` const fn from `utils/crc.rs`: shift the seed left 8 bits
(in `u16`) and run `len` rounds. -/
def crc16fn (poly value len : Nat) : Nat :=
  crc16rounds poly len ((value <<< 8) &&& 0xFFFF)

/-- `crc16_table` entry for the major-sync polynomial 0x2D
(`Crc16::table_entry` masks the index to its low 8 bits). -/
def crc16TableEntry (index : Nat) : Nat :=
  crc16fn 0x2D (index &&& 0xFF) 8

/-- `Crc16::update` for the major-sync algorithm (poly 0x2D):
`crc = table[crc >> 8] ^ (crc << 8) ^ byte` per byte, in `u16`. -/
def crc16Update (crc : Nat) : List Nat → Nat
  | [] => crc
  | b :: rest =>
      crc16Update ((crc16TableEntry (crc >>> 8)) ^^^ ((crc <<< 8) &&& 0xFFFF) ^^^ (b % 256)) rest

/-- State of `Extractor`.  The `crc` engine is a pure function here, the
buffer pool is immaterial (frames copy their bytes), and a pending
timestamp is kept as its raw 16 bytes (no claim depends on the parsed
timestamp; `Timestamp::from_bytes(..).ok()` never affects control flow). -/
structure ExtractorState where
  buffer : List Nat
  timestamp : Option (List Nat)
  inited : Bool
  locked : Bool
  ioCounter : Nat
  substreams : Nat
  errorCount : Nat
  framesProcessed : Nat
  deriving Repr

/-- `Extractor::default()`. -/
def extractorDefault : ExtractorState :=
  { buffer := [], timestamp := none, inited := false, locked := false,
    ioCounter := 0, substreams := 0, errorCount := 0, framesProcessed := 0 }

/-- `Extractor::push_bytes`: extend the buffer, bump `io_counter`. -/
def pushBytes (s : ExtractorState) (data : List Nat) : ExtractorState :=
  { s with buffer := s.buffer ++ data, ioCounter := s.ioCounter + 1 }

/-- A yielded `Frame`. -/
structure FrameM where
  timestamp : Option (List Nat)
  data : List Nat
  deriving Repr

/-- `Extractor::access_unit_len`:
`((u16::from_be_bytes([buffer[0], buffer[1]]) & 0xFFF) << 1)`. -/
def accessUnitLen (buf : List Nat) : Option Nat :=
  match buf.get? 0, buf.get? 1 with
  | some b0, some b1 => some ((((b0 % 256) * 256 + b1 % 256) &&& 0xFFF) <<< 1)
  | _, _ => none

/-- `Extractor::major_sync_info_len`:
26 when bit 0 of `buffer[29]` is clear, else `28 + ((buffer[30] >> 3) & 0x1E)`. -/
def majorSyncInfoLen (buf : List Nat) : Option Nat :=
  match buf.get? 29 with
  | none => none
  | some b29 =>
      if (b29 % 256) &&& 1 == 0 then some 26
      else
        match buf.get? 30 with
        | none => none
        | some b30 => some (28 + (((b30 % 256) >>> 3) &&& 0x1E))

/-- The sync-scan state machine of `Extractor::resync` over the bytes of
`buffer.range(4..search_range)`: returns the enumerate index recorded at
the `0xF8` byte of the first complete `F8 72 6F (BA|BB)` match. -/
def findSyncGo : List Nat → Nat → Nat → Nat → Option Nat
  | [], _, _, _ => none
  | b :: rest, i, state, offset =>
      let b := b % 256
      if b == 0xF8 then findSyncGo rest (i + 1) 1 i
      else if state == 1 && b == 0x72 then findSyncGo rest (i + 1) 2 offset
      else if state == 2 && b == 0x6F then findSyncGo rest (i + 1) 3 offset
      else if state == 3 && (b == 0xBA || b == 0xBB) then some offset
      else findSyncGo rest (i + 1) 0 offset

/-- Scan a slice for the major-sync pattern. -/
def findSync (slice : List Nat) : Option Nat :=
  findSyncGo slice 0 0 0

/-- `Extractor::insufficient` / `iter_insufficient`: decrement
`io_counter` and report `InsufficientData`. -/
def insufficientE (s : ExtractorState) : Except ExtractError Unit × ExtractorState :=
  (Except.error .InsufficientData, { s with ioCounter := s.ioCounter - 1 })

/-- The buffer advance of `Extractor::resync` once the sync pattern has
been found at enumerate index `offset`: before initialisation and with
at least 16 preceding bytes, consume up to 16 bytes before the frame
start and drain those 16 as a timestamp candidate; otherwise just
consume up to the frame start.  Either way the extractor becomes
initialised. -/
def resyncAdvance (s : ExtractorState) (offset : Nat) : ExtractorState :=
  if ¬s.inited ∧ offset ≥ 16 then
    { s with buffer := (s.buffer.drop (offset - 16)).drop 16,
             timestamp := some ((s.buffer.drop (offset - 16)).take 16), inited := true }
  else
    { s with buffer := s.buffer.drop offset, timestamp := none, inited := true }

/-- The stored big-endian CRC-16 following the major-sync info of the
candidate access unit. -/
def crcReadOf (buf : List Nat) (msil aul : Nat) : Nat :=
  ((buf.take aul).getD (4 + msil) 0 % 256) * 256 +
    (buf.take aul).getD (4 + msil + 1) 0 % 256

/-- The computed CRC-16 over `access_unit_bytes[4..4+msil]`. -/
def crcCalcOf (buf : List Nat) (msil aul : Nat) : Nat :=
  crc16Update 0 (((buf.take aul).drop 4).take msil)

/-- Loop body of `Extractor::resync`, with fuel for the `continue` after
a failed major-sync CRC (each such iteration consumes a whole candidate
access unit, at least 33 bytes, so `buffer.length + 1` fuel suffices;
the exhaustion branch is unreachable and conservatively reports
`InsufficientData`).  On a failed CRC the source logs
`ExtractError::ParityCheckFailed` and keeps scanning. -/
def resyncGo : Nat → ExtractorState → Except ExtractError Unit × ExtractorState
  | 0, s => insufficientE s
  | fuel + 1, s =>
      if s.buffer.length - (if s.inited then 4 else 16) < 4 then insufficientE s
      else
        match findSync ((s.buffer.drop 4).take
            (s.buffer.length - (if s.inited then 4 else 16) - 4)) with
        | none =>
            insufficientE
              { s with buffer := s.buffer.drop (s.buffer.length -
                  (if s.inited then 4 else 16)) }
        | some offset =>
            match majorSyncInfoLen (resyncAdvance s offset).buffer with
            | none => insufficientE (resyncAdvance s offset)
            | some msil =>
                if (resyncAdvance s offset).buffer.length < 4 + msil then
                  insufficientE (resyncAdvance s offset)
                else
                  match accessUnitLen (resyncAdvance s offset).buffer with
                  | none => insufficientE (resyncAdvance s offset)
                  | some aul =>
                      if (resyncAdvance s offset).buffer.length < aul ∨ aul ≤ msil + 6 then
                        insufficientE (resyncAdvance s offset)
                      else if crcReadOf (resyncAdvance s offset).buffer msil aul ≠
                          crcCalcOf (resyncAdvance s offset).buffer msil aul then
                        resyncGo fuel
                          { resyncAdvance s offset with
                              buffer := (resyncAdvance s offset).buffer.drop aul }
                      else
                        (Except.ok (),
                         { resyncAdvance s offset with
                             locked := true,
                             substreams :=
                               ((resyncAdvance s offset).buffer.getD 20 0 % 256) >>> 4 })

/-- `Extractor::resync` (clears the sync lock, then scans). -/
def resync (s : ExtractorState) : Except ExtractError Unit × ExtractorState :=
  resyncGo (s.buffer.length + 1) { s with locked := false }

/-- XOR the `count` bytes of `buf` starting at `offset` into `parity`
(the `pre`/`post` arms of the directory parity walk); `none` models the
`break 'inner` on a missing byte. -/
def xorRange (buf : List Nat) : Nat → Nat → Nat → Option Nat
  | _, 0, parity => some parity
  | offset, n + 1, parity =>
      match buf.get? offset with
      | none => none
      | some b => xorRange buf (offset + 1) n (parity ^^^ (b % 256))

/-- The `substreams` arm of the directory parity walk: peek the entry
byte at `offset` (without advancing), XOR its 2 bytes (4 when its high
bit is set), repeat per substream. -/
def parityDirWalk (buf : List Nat) : Nat → Nat → Nat → Option Nat
  | _, 0, parity => some parity
  | offset, ss + 1, parity =>
      match buf.get? offset with
      | none => none
      | some b =>
          let post := 2 + (if (b % 256) >>> 7 ≠ 0 then 2 else 0)
          match xorRange buf offset post parity with
          | none => none
          | some p => parityDirWalk buf (offset + post) ss p

/-- The whole parity walk of `Iterator::next`: 4 `pre` bytes, `skip`
skipped bytes (never read), then the directory entries. -/
def parityWalk (buf : List Nat) (skip substreams : Nat) : Option Nat :=
  match xorRange buf 0 4 0 with
  | none => none
  | some p => parityDirWalk buf (4 + skip) substreams p

/-- Outcome of the `'locked` block body of `Iterator::next` (the body
mutates no extractor state before one of these outcomes). -/
inductive LockedResult where
  | insufficient
  | yield (aul : Nat)
  | recover
  deriving DecidableEq, Repr

/-- Continuation of the `'locked` block after the `skip` width is known:
parity walk, parity fold check, access-unit length check. -/
def lockedBody2 (s : ExtractorState) (skip : Nat) : LockedResult :=
  match parityWalk s.buffer skip s.substreams with
  | none => .insufficient
  | some parity =>
      if ((parity >>> 4) ^^^ parity) &&& 0xF ≠ 0xF then .recover
      else
        match accessUnitLen s.buffer with
        | none => .insufficient
        | some aul => if s.buffer.length < aul then .insufficient else .yield aul

/-- The `'locked` block body of `Iterator::next` for a locked extractor. -/
def lockedBody (s : ExtractorState) : LockedResult :=
  if s.buffer.length < 6 then .insufficient
  else if s.buffer.getD 4 0 % 256 == 0xF8 && s.buffer.getD 5 0 % 256 == 0x72 then
    if s.buffer.length < 21 then .insufficient
    else if s.substreams ≠ (s.buffer.getD 20 0 % 256) >>> 4 then .recover
    else
      match majorSyncInfoLen s.buffer with
      | none => .insufficient
      | some msil => lockedBody2 s (msil + 2)
  else lockedBody2 s 0

/-- The single-byte recovery step taken after a recoverable corruption
(`if self.inited { self.error_count += 1; if !self.buffer.is_empty() {
self.buffer.pop_front(); } }`), before the iterator resyncs. -/
def recoverState (s : ExtractorState) : ExtractorState :=
  if s.inited then
    { s with errorCount := s.errorCount + 1,
             buffer := if s.buffer.isEmpty then s.buffer else s.buffer.drop 1 }
  else s

/-- The loop of `Iterator::next` for `Extractor`, with fuel for the
recovery path (each recovery iteration of the source consumes at least
one buffered byte once the extractor is initialised). -/
def nextGo : Nat → ExtractorState → Option (Except ExtractError FrameM) × ExtractorState
  | 0, s => (none, s)
  | fuel + 1, s =>
      match (if s.locked then (Except.ok (), s) else resync s) with
      | (Except.error _, s₁) => (none, s₁)
      | (Except.ok _, s₁) =>
          match lockedBody s₁ with
          | .insufficient =>
              (some (Except.error .InsufficientData), { s₁ with ioCounter := s₁.ioCounter - 1 })
          | .yield aul =>
              (some (Except.ok { timestamp := s₁.timestamp, data := s₁.buffer.take aul }),
               { s₁ with buffer := s₁.buffer.drop aul, timestamp := none,
                         framesProcessed := s₁.framesProcessed + 1 })
          | .recover =>
              match resync (recoverState s₁) with
              | (Except.ok _, s₃) => nextGo fuel s₃
              | (Except.error _, s₃) => (none, s₃)

/-- `<Extractor as Iterator>::next`. -/
def extractorNext (s : ExtractorState) : Option (Except ExtractError FrameM) × ExtractorState :=
  if s.ioCounter = 0 then (none, s)
  else nextGo (s.buffer.length + 3) s

/-- Drive the iterator to exhaustion, collecting every yielded item
(`for frame in extractor { .. }`). -/
def runExtractor : Nat → ExtractorState → List (Except ExtractError FrameM)
  | 0, _ => []
  | fuel + 1, s =>
      match extractorNext s with
      | (none, _) => []
      | (some r, s₁) => r :: runExtractor fuel s₁

/-- Summary of one yielded item: `Ok` frames by their byte length. -/
inductive RunItem where
  | frame (len : Nat)
  | err (e : ExtractError)
  deriving DecidableEq, Repr

/-- Summarise a yielded item. -/
def summarize : Except ExtractError FrameM → RunItem
  | .ok f => .frame f.data.length
  | .error e => .err e

/-- `EXAMPLE_DATA` from `process/mod.rs` (120 bytes: a 16-byte SMPTE
timestamp, an 84-byte major-sync frame, a 20-byte frame). -/
def EXAMPLE_DATA : List Nat := [
  0x01, 0x10, 0x00, 0x01, 0x00, 0x23, 0x00, 0x45, 0x00, 0x16, 0x00, 0x19, 0x00, 0x11, 0x80, 0x00,
  0xF0, 0x2A, 0xFF, 0xAC, 0xF8, 0x72, 0x6F, 0xBA, 0x00, 0x00, 0x80, 0x01, 0xB7, 0x52, 0x00, 0x00,
  0x00, 0x00, 0x80, 0x80, 0x10, 0x14, 0x03, 0x80, 0x3F, 0x1F, 0xE3, 0x07, 0xE3, 0x00, 0x52, 0x98,
  0xB0, 0x18, 0x03, 0xF0, 0xF1, 0xEA, 0x00, 0x00, 0x01, 0x10, 0x00, 0x00, 0x02, 0x09, 0x52, 0x80,
  0x00, 0x00, 0x00, 0x02, 0xB4, 0x44, 0x01, 0xE8, 0xC4, 0x40, 0x88, 0xD1, 0xFE, 0x91, 0x00, 0x63,
  0x03, 0xE9, 0x18, 0x33, 0x86, 0x20, 0x68, 0xFF, 0xCB, 0x6E, 0xDB, 0x6D, 0xB6, 0xDB, 0x6D, 0xB7,
  0x80, 0x00, 0x64, 0xF9, 0x50, 0x0A, 0x00, 0x00, 0x70, 0x07, 0x91, 0x40, 0x48, 0x00, 0x11, 0x3D,
  0xDB, 0xEF, 0xF3, 0xDE, 0xD0, 0x00, 0xD5, 0x04]

/-- The C5 scenario input: `EXAMPLE_DATA ++ [FF FF FF FF]` twice, pushed
into a fresh extractor by a single `push_bytes` call. -/
def c5Init : ExtractorState :=
  pushBytes extractorDefault
    (EXAMPLE_DATA ++ [0xFF, 0xFF, 0xFF, 0xFF] ++ EXAMPLE_DATA ++ [0xFF, 0xFF, 0xFF, 0xFF])

/-! ## Substream segment block loop (`src/truehd/src/structs/substream.rs`) -/

/-- The errors the block-count loop of `SubstreamSegment::read` can
produce: `SubstreamError::TooManyBlocks`, or a failed bit read at the
`last_block_in_segment` flag (`eof`). -/
inductive SubstreamErrM where
  | TooManyBlocks (n : Nat)
  | eof
  deriving DecidableEq, Repr

/-- The block loop of `SubstreamSegment::read` (lines 140..147): read
blocks until the 1-bit `last_block_in_segment` flag is set, failing
when `ss.block.len() > 4 || ss.block.len() >= 3 && format_sync ==
MAJOR_SYNC_FBA` at the top of an iteration.  `Block::read` itself is
abstracted away (it never touches the block count or the flag bits);
`flags` is the stream of `last_block_in_segment` bits and the result is
the number of blocks read. -/
def readSegmentBlocks (fba : Bool) : List Bool → Nat → Except SubstreamErrM Nat
  | flags, blocksRead =>
      if blocksRead > 4 ∨ (blocksRead ≥ 3 ∧ fba) then .error (.TooManyBlocks blocksRead)
      else
        match flags with
        | [] => .error .eof
        | lastBlock :: rest =>
            if lastBlock then .ok (blocksRead + 1)
            else readSegmentBlocks fba rest (blocksRead + 1)

/-! ## Restart sync word validation (`src/truehd/src/structs/restart_header.rs`) -/

/-- `RestartSyncWord` (ignoring the `None` placeholder, which
`RestartSyncWord::read` can never produce). -/
inductive RestartSyncWord where
  | A
  | B
  | C
  deriving DecidableEq, Repr

/-- The errors of the sync-word validation path, plus `panicked` for the
`panic!` arm of `impl From<u16> for RestartSyncWord`. -/
inductive RestartHeaderErrM where
  | InvalidSyncBForSubstream1
  | InvalidSyncBForSubstream0
  | InvalidSyncC (w : Nat)
  | panicked
  deriving DecidableEq, Repr

/-- `impl From<u16> for RestartSyncWord`: any value other than 0x31EA,
0x31EB, 0x31EC hits the `panic!` arm (modelled as `none`). -/
def restartSyncWordFromU16 (value : Nat) : Option RestartSyncWord :=
  if value = 0x31EA then some .A
  else if value = 0x31EB then some .B
  else if value = 0x31EC then some .C
  else none

/-- The per-substream legality match on `rh.restart_sync_word` in
`RestartHeader::read` (lines 285..302). -/
def checkRestartSyncWord (w : RestartSyncWord) (substreamIndex substreamInfo : Nat) :
    Except RestartHeaderErrM Unit :=
  match w with
  | .A =>
      if substreamIndex = 1 ∧ substreamInfo &&& 8 = 0 then
        .error .InvalidSyncBForSubstream1
      else .ok ()
  | .B =>
      if substreamIndex = 0 then .error .InvalidSyncBForSubstream0 else .ok ()
  | .C =>
      if substreamIndex ≠ 3 then .error (.InvalidSyncC 0x31EC) else .ok ()

/-- The combination `RestartSyncWord::read` (a 14-bit read converted via
`From<u16>`) followed by the legality match: what the parser does with a
restart sync word `value` read in substream `substreamIndex`. -/
def readAndCheckRestartSyncWord (value substreamIndex substreamInfo : Nat) :
    Except RestartHeaderErrM RestartSyncWord :=
  match restartSyncWordFromU16 value with
  | none => .error .panicked
  | some w =>
      match checkRestartSyncWord w substreamIndex substreamInfo with
      | .ok _ => .ok w
      | .error e => .error e

/-! ## Per-sample Huffman residual decode (`src/truehd/src/structs/block.rs`)

The bit reader is a big-endian list of bits; `get_n` reads `n` bits as
an unsigned value, `get_huffman` walks one of the three trees of
`utils/bitstream_io.rs`. -/

/-- Big-endian value of a bit list. -/
def bitsToNat (bits : List Bool) : Nat :=
  bits.foldl (fun a b => 2 * a + (if b then 1 else 0)) 0

/-- `get_n`: read `n` bits big-endian; `none` models the
`UnexpectedEof` error. -/
def getN (n : Nat) (bits : List Bool) : Option (Nat × List Bool) :=
  if n ≤ bits.length then some (bitsToNat (bits.take n), bits.drop n) else none

/-- A binary Huffman tree with `i32` leaves, as built by
`define_huffman_tree!`. -/
inductive HTree where
  | leaf (v : Int)
  | node (l r : HTree)

/-- The shared negative branch `[[[[[[[(-7),(-7)],-6],-5],-4],-3],-2],-1]`. -/
def huffNeg : HTree :=
  .node (.node (.node (.node (.node (.node (.node (.leaf (-7)) (.leaf (-7)))
    (.leaf (-6))) (.leaf (-5))) (.leaf (-4))) (.leaf (-3))) (.leaf (-2))) (.leaf (-1))

/-- `HuffTree1` positive branch `[[[[[[[10,10],9],8],7],6],5],4]`. -/
def huffPos1 : HTree :=
  .node (.node (.node (.node (.node (.node (.node (.leaf 10) (.leaf 10))
    (.leaf 9)) (.leaf 8)) (.leaf 7)) (.leaf 6)) (.leaf 5)) (.leaf 4)

/-- `HuffTree2` positive branch `[[[[[[[8,8],7],6],5],4],3],2]`. -/
def huffPos2 : HTree :=
  .node (.node (.node (.node (.node (.node (.node (.leaf 8) (.leaf 8))
    (.leaf 7)) (.leaf 6)) (.leaf 5)) (.leaf 4)) (.leaf 3)) (.leaf 2)

/-- `HuffTree3` positive branch `[[[[[[[7,7],6],5],4],3],2],1]`. -/
def huffPos3 : HTree :=
  .node (.node (.node (.node (.node (.node (.node (.leaf 7) (.leaf 7))
    (.leaf 6)) (.leaf 5)) (.leaf 4)) (.leaf 3)) (.leaf 2)) (.leaf 1)

/-- `HuffTree1 = [[neg, pos1], [[0, 1], [2, 3]]]`. -/
def huffTree1 : HTree :=
  .node (.node huffNeg huffPos1)
    (.node (.node (.leaf 0) (.leaf 1)) (.node (.leaf 2) (.leaf 3)))

/-- `HuffTree2 = [[neg, pos2], [0, 1]]`. -/
def huffTree2 : HTree :=
  .node (.node huffNeg huffPos2) (.node (.leaf 0) (.leaf 1))

/-- `HuffTree3 = [[neg, pos3], 0]`. -/
def huffTree3 : HTree :=
  .node (.node huffNeg huffPos3) (.leaf 0)

/-- Walk a Huffman tree: bit 0 goes left, bit 1 goes right (big-endian
`BitReader::read_huffman`). -/
def huffWalk : HTree → List Bool → Option (Int × List Bool)
  | .leaf v, bits => some (v, bits)
  | .node _ _, [] => none
  | .node l r, b :: bits => huffWalk (if b then r else l) bits

/-- `get_huffman`: dispatch on `huff_type`; any other value is an
`InvalidInput` error (`none`). -/
def getHuffman (huffType : Nat) (bits : List Bool) : Option (Int × List Bool) :=
  match huffType with
  | 1 => huffWalk huffTree1 bits
  | 2 => huffWalk huffTree2 bits
  | 3 => huffWalk huffTree3 bits
  | _ => none

/-- The Huffman-code and LSB reads of one sample of one channel in
`Block::read`: the Huffman code (for `huff_type != 0`; the raw path
reads no code and contributes 0), then `lsbs_bits` literal bits when
`lsbs_bits > 0`.  Returns `(huff_code, lsbs, remaining bits)`. -/
def readHuffLsbs (huffType lsbsBits : Nat) (bits : List Bool) :
    Option (Int × Nat × List Bool) :=
  if huffType ≠ 0 then
    match getHuffman huffType bits with
    | none => none
    | some (code, bits₁) =>
        match (if lsbsBits > 0 then getN lsbsBits bits₁ else some (0, bits₁)) with
        | none => none
        | some (lsbs, bits₂) => some (code, lsbs, bits₂)
  else
    match (if lsbsBits > 0 then getN lsbsBits bits else some (0, bits)) with
    | none => none
    | some (lsbs, bits₂) => some (0, lsbs, bits₂)

/-- Failure modes of the per-sample decode (`BlockError`), plus `eof`
for a failed bit read. -/
inductive BlockErrM where
  | QuantiserStepTooLarge
  | HuffmanPositiveSaturation
  | HuffmanNegativeSaturation
  | HuffmanSampleTooLong
  | eof
  deriving DecidableEq, Repr

/-- The centered Huffman/LSB value of one sample (`audio_data` before
the offset and quantiser shift): `lsbs + (huff_code << lsbs_bits) - (if
shift < 0 { 0 } else { 1 << shift })` with `shift = lsbs_bits + (2 -
huff_type)` for tables 1..3, and `lsbs - (if lsbs_bits > 0 { 1 <<
(lsbs_bits - 1) } else { 0 })` for table 0.  All `i32` arithmetic is
modelled with explicit 32-bit wrapping, and shift amounts are masked mod
32 as Rust release builds do. -/
def huffRawValue (huffType lsbsBits : Nat) (code : Int) (lsbs : Nat) : Int :=
  if huffType ≠ 0 then
    let shift : Int := (lsbsBits : Int) + (2 - (huffType : Int))
    wrap32 (wrap32 ((lsbs : Int) + wrap32 (code * 2 ^ (lsbsBits % 32))) -
      (if shift < 0 then 0 else wrap32 (2 ^ (shift.toNat % 32))))
  else
    wrap32 ((lsbs : Int) -
      (if lsbsBits > 0 then wrap32 (2 ^ ((lsbsBits - 1) % 32)) else 0))

/-- The decoded residual: `audio_data += huff_offset; audio_data <<=
quantiser_step_size` applied to the centered value, in wrapping `i32`. -/
def huffAudioData (huffType lsbsBits quantiserStepSize : Nat) (code : Int)
    (lsbs : Nat) (huffOffset : Int) : Int :=
  wrap32 (wrap32 (huffRawValue huffType lsbsBits code lsbs + huffOffset) *
    2 ^ (quantiserStepSize % 32))

/-- Lines 407..470 of `block.rs`: decode the residual of channel `chi`
for one sample.  `bypassedLsbBits` is the number of bypassed-LSB bits
read for this sample before the channel loop.  Returns the decoded
residual and the remaining bits; `bits.length - bits₂.length` is the
`huff_size` of the source. -/
def huffDecodeSample (restartSyncWord minChan chi bypassedLsbBits : Nat)
    (huffOffset : Int) (huffType huffLsbs quantiserStepSize : Nat)
    (bits : List Bool) : Except BlockErrM (Int × List Bool) :=
  if quantiserStepSize > huffLsbs then .error .QuantiserStepTooLarge
  else
    match readHuffLsbs huffType (huffLsbs - quantiserStepSize) bits with
    | none => .error .eof
    | some (code, lsbs, bits₂) =>
        if restartSyncWord ≠ 0x31EC then
          if huffAudioData huffType (huffLsbs - quantiserStepSize) quantiserStepSize
              code lsbs huffOffset ≥ 2 ^ 23 then
            .error .HuffmanPositiveSaturation
          else if huffAudioData huffType (huffLsbs - quantiserStepSize) quantiserStepSize
              code lsbs huffOffset < -(2 ^ 23) then
            .error .HuffmanNegativeSaturation
          else if chi = minChan ∧ bits.length - bits₂.length + bypassedLsbBits > 32 then
            -- the source only logs a warning here and keeps the sample
            .ok (huffAudioData huffType (huffLsbs - quantiserStepSize) quantiserStepSize
              code lsbs huffOffset, bits₂)
          else if bits.length - bits₂.length > 29 then .error .HuffmanSampleTooLong
          else
            .ok (huffAudioData huffType (huffLsbs - quantiserStepSize) quantiserStepSize
              code lsbs huffOffset, bits₂)
        else
          .ok (huffAudioData huffType (huffLsbs - quantiserStepSize) quantiserStepSize
            code lsbs huffOffset, bits₂)

/-- The claimed residual formula, read with Rust operator precedence:
`(huff + lsbs << quantiser_step_size) + huff_offset`
`= ((huff + lsbs) << quantiser_step_size) + huff_offset`. -/
def claimResidual (huff : Int) (lsbs : Nat) (quantiserStepSize : Nat) (huffOffset : Int) : Int :=
  (huff + lsbs) * 2 ^ quantiserStepSize + huffOffset

/-- The centering bias actually subtracted by the source: for table 0 it
is `1 << (lsbs_bits - 1)` when `lsbs_bits > 0`, for tables 1..3 it is
`1 << (lsbs_bits + 2 - huff_type)` when that shift is non-negative. -/
def residCenter (huffType lsbsBits : Nat) : Int :=
  if huffType = 0 then (if lsbsBits > 0 then 2 ^ (lsbsBits - 1) else 0)
  else if lsbsBits + 2 ≥ huffType then 2 ^ (lsbsBits + 2 - huffType) else 0

/-! ## Decoder (`src/truehd/src/process/decode.rs`)

For claims C3 and C8 the decoder is projected onto the fields that the
sample-length bookkeeping and presentation resolution touch
(`valid`, `samples_per_au`, `presentation`, `substream_mask`,
`zero_samples`, the presentation map and the major-sync scalars).
`Block::update_decoder_state` and `DecoderState::decode` mutate only
PCM/filter/matrix state and the OAMD queue, never these fields, so per-
block decoding is omitted from this projection. -/

/-- Decoder-side errors.  `InvalidPresentation` is declared in
`utils/errors.rs` but never constructed anywhere in the crate;
`panicked` models a Rust panic (out-of-bounds array index). -/
inductive DecodeErrM where
  | InvalidPresentation (index : Nat)
  | noPresentationMap
  | invalidAudioSamplingFreq (value : Nat)
  | panicked
  deriving DecidableEq, Repr

/-- `Terminator` (the fields the decoder reads). -/
structure TerminatorM where
  zeroSamplesIndicated : Bool
  zeroSamples : Nat
  deriving DecidableEq, Repr

/-- `SubstreamSegment` as seen by the decoder's zero-sample logic. -/
structure SegmentM where
  terminator : Option TerminatorM
  deriving DecidableEq, Repr

/-- The major-sync fields consumed by
`MajorSyncInfo::update_decoder_state`. -/
structure MajorSyncM where
  audioSamplingFrequency1 : Nat
  substreams : Nat
  substreamInfo : Nat
  extendedSubstreamInfo : Nat
  deriving DecidableEq, Repr

/-- `AccessUnit` as seen by the decoder's zero-sample logic (the four
`SubstreamSegment`s and the optional major sync). -/
structure AccessUnitM where
  majorSyncInfo : Option MajorSyncM
  substreamSegment : List SegmentM
  deriving DecidableEq, Repr

/-- The `DecoderState` projection. -/
structure DecoderStateM where
  valid : Bool
  samplingFrequency : Nat
  samplesPerAu : Nat
  presentationMap : Option PresentationMap
  presentation : Nat
  substreams : Nat
  substreamInfo : Nat
  extendedSubstreamInfo : Nat
  substreamMask : Nat
  zeroSamples : Nat
  deriving DecidableEq, Repr

/-- `DecoderState::default()` restricted to the projection. -/
def decoderDefault : DecoderStateM :=
  { valid := false, samplingFrequency := 0, samplesPerAu := 0,
    presentationMap := none, presentation := 0, substreams := 0,
    substreamInfo := 0, extendedSubstreamInfo := 0, substreamMask := 0,
    zeroSamples := 0 }

/-- `FormatInfo::map_sampling_freq` from `structs/sync.rs`. -/
def mapSamplingFreq (value : Nat) : Option Nat :=
  if value ≤ 2 then some (48000 <<< value)
  else if 8 ≤ value ∧ value ≤ 10 then some (44100 <<< (value - 8))
  else none

/-- `FormatInfo::samples_per_au`: `(freq / 44100) * 40`. -/
def samplesPerAuOf (freq : Nat) : Nat :=
  freq / 44100 * 40

/-- `MajorSyncInfo::update_decoder_state` (via
`FormatInfo::update_decoder_state`). -/
def majorSyncUpdateDecoderState (ms : MajorSyncM) (st : DecoderStateM) :
    Except DecodeErrM DecoderStateM :=
  match mapSamplingFreq ms.audioSamplingFrequency1 with
  | none => .error (.invalidAudioSamplingFreq ms.audioSamplingFrequency1)
  | some freq =>
      let st := { st with samplingFrequency := freq, samplesPerAu := samplesPerAuOf freq }
      let st := if st.valid ∧ st.substreams ≠ ms.substreams then { st with valid := false } else st
      .ok { st with
              substreams := ms.substreams,
              substreamInfo := ms.substreamInfo,
              extendedSubstreamInfo := ms.extendedSubstreamInfo,
              presentationMap :=
                some (PresentationMap.with_substream_info ms.substreamInfo
                  ms.extendedSubstreamInfo) }

/-- `AccessUnit::update_decoder_state` restricted to the projection
(`has_valid_branch` is not part of it). -/
def auUpdateDecoderState (au : AccessUnitM) (st : DecoderStateM) :
    Except DecodeErrM DecoderStateM :=
  match au.majorSyncInfo with
  | some ms => majorSyncUpdateDecoderState ms st
  | none => .ok st

/-- `DecoderState::update_presentation`.  `presentations[presentation] =
true` on the `[bool; MAX_PRESENTATIONS]` array panics for `presentation
>= 4`.  In the `Invalid` arm the source falls back to
`max_independent_presentation()`; since `masks[0] = 1` this is always
`some i`, whose value we take. -/
def updatePresentation (st : DecoderStateM) (presentation : Nat) :
    Except DecodeErrM DecoderStateM :=
  match st.presentationMap with
  | none => .error .noPresentationMap
  | some pm =>
      if presentation ≥ MAX_PRESENTATIONS then .error .panicked
      else
        let required := (List.range MAX_PRESENTATIONS).map (fun i => i == presentation)
        let st := { st with
          substreamMask := pm.substream_mask_by_required_presentations required }
        match pm.presentation_type_by_index presentation with
        | .Invalid =>
            if ¬st.valid then
              .ok { st with presentation := (pm.max_independent_presentation).getD 0 }
            else .ok st
        | .CopyOf copyIndex => .ok { st with presentation := copyIndex }
        | _ => .ok { st with presentation := presentation }

/-- The substream loop of `DecoderState::decode_access_unit`, projected
onto the zero-sample bookkeeping: for each substream `i` in
`0..=state.presentation` enabled in `substream_mask`, when `i` equals
the requested presentation and the segment has a terminator with
`zero_samples_indicated`, record its count.  Per-block decoding (which
never touches these fields) is omitted. -/
def zeroSampleLoop (au : AccessUnitM) (presentation : Nat) :
    List Nat → DecoderStateM → DecoderStateM
  | [], st => st
  | i :: rest, st =>
      if (st.substreamMask >>> i) &&& 1 = 0 then zeroSampleLoop au presentation rest st
      else
        let seg := au.substreamSegment.getD i { terminator := none }
        let st :=
          match seg.terminator with
          | some t =>
              if i = presentation ∧ t.zeroSamplesIndicated then
                { st with zeroSamples := t.zeroSamples }
              else st
          | none => st
        zeroSampleLoop au presentation rest st

/-- `DecoderState::decode_access_unit`, projected. -/
def decodeAccessUnit (st : DecoderStateM) (au : AccessUnitM) (presentation : Nat) :
    Except DecodeErrM DecoderStateM :=
  match auUpdateDecoderState au st with
  | .error e => .error e
  | .ok st₁ =>
      match (if ¬st₁.valid then updatePresentation st₁ presentation else .ok st₁) with
      | .error e => .error e
      | .ok st₂ =>
          let st₃ := zeroSampleLoop au presentation (List.range (st₂.presentation + 1)) st₂
          .ok { st₃ with valid := true }

/-- `Decoder::decode_presentation`, projected onto `sample_length`:
`samples_per_au - zero_samples` of the post-decode state. -/
def decodePresentation (st : DecoderStateM) (au : AccessUnitM) (presentation : Nat) :
    Except DecodeErrM (Nat × DecoderStateM) :=
  match decodeAccessUnit st au presentation with
  | .error e => .error e
  | .ok st₁ => .ok (st₁.samplesPerAu - st₁.zeroSamples, st₁)

/-- Effective presentation index of a decode result, `none` on error. -/
def presentationOfResult : Except DecodeErrM (Nat × DecoderStateM) → Option Nat
  | .ok (_, st) => some st.presentation
  | .error _ => none

/-- A major-sync access unit (48 kHz, one substream, presentation map
`[1, 3, 4, 12]`) with no terminators, used for C8. -/
def c8Au : AccessUnitM :=
  { majorSyncInfo := some ⟨0, 1, 0b11001100, 1⟩,
    substreamSegment := [⟨none⟩, ⟨none⟩, ⟨none⟩, ⟨none⟩] }

/-- C3: a major-sync access unit (48 kHz, one substream) whose substream
0 segment carries a terminator with `zero_samples_indicated` and a
trailing-zero count of 5. -/
def c3Au1 : AccessUnitM :=
  { majorSyncInfo := some ⟨0, 1, 0, 0⟩,
    substreamSegment := [⟨some ⟨true, 5⟩⟩, ⟨none⟩, ⟨none⟩, ⟨none⟩] }

/-- C3: the same access unit with no terminator anywhere. -/
def c3Au2 : AccessUnitM :=
  { majorSyncInfo := some ⟨0, 1, 0, 0⟩,
    substreamSegment := [⟨none⟩, ⟨none⟩, ⟨none⟩, ⟨none⟩] }

/-- C3: the decoder state after decoding `c3Au1` at presentation 0 from
a fresh decoder. -/
def c3State1 : DecoderStateM :=
  { valid := true, samplingFrequency := 48000, samplesPerAu := 40,
    presentationMap := some (PresentationMap.with_substream_info 0 0),
    presentation := 0, substreams := 1, substreamInfo := 0,
    extendedSubstreamInfo := 0, substreamMask := 1, zeroSamples := 5 }

/-- C3: the decoder state after decoding `c3Au2` at presentation 0 from
a fresh decoder. -/
def c3State0 : DecoderStateM :=
  { c3State1 with zeroSamples := 0 }

/-! ## 0x31EA lossless matrix kernel (`decode.rs`, lines 443..471) -/

/-- Wrap an integer into signed 8-bit two's complement range. -/
def wrap8 (x : Int) : Int :=
  (x + 128) % 256 - 128

/-- The first noise channel of the 0x31EA path:
`(((dither_seed >> 15) as i8) << dither_shift) as i32`.  The cast
truncates to 8 bits, the `i8` shift discards overflowing bits (shift
amounts are masked mod 8 in release builds), and the final cast
sign-extends. -/
def noiseA (seed ditherShift : Nat) : Int :=
  toSigned8 (((seed >>> 15) % 256) <<< (ditherShift % 8))

/-- The second noise channel:
`((dither_seed_shr7 as i8) << dither_shift) as i32` with
`dither_seed_shr7 = dither_seed >> 7`. -/
def noiseB (seed ditherShift : Nat) : Int :=
  toSigned8 (((seed >>> 7) % 256) <<< (ditherShift % 8))

/-- The seed recurrence
`(shr7 ^ (shr7 << 5) ^ (seed << 16)) & 0x7FFFFF` in `u32`. -/
def advanceSeed (seed : Nat) : Nat :=
  ((seed >>> 7) ^^^ (((seed >>> 7) <<< 5) % 2 ^ 32) ^^^ ((seed <<< 16) % 2 ^ 32)) &&& 0x7FFFFF

/-- The claim's seed recurrence, written over unbounded naturals:
`seed = (seed>>7 ^ (seed>>7)<<5 ^ seed<<16) & 0x7FFFFF`. -/
def specSeedAdvance (seed : Nat) : Nat :=
  ((seed >>> 7) ^^^ ((seed >>> 7) <<< 5) ^^^ (seed <<< 16)) &&& 0x7FFFFF

/-- A primitive matrix as used by the 0x31EA kernel: target matrix
channel, coefficient row, and this sample's bypassed LSB. -/
structure Primitive31ea where
  matrixCh : Nat
  mCoeff : List Int
  bypassedLsb : Int
  deriving Repr

/-- One primitive-matrix application of the 0x31EA kernel:
`acc = Σ_{chi=0}^{max_matrix_chan+2} buf[chi] as i64 * m_coeff[chi] as
i64` (wrapping `i64` adds), then
`buf[matrix_ch] = (((acc >> 18) as i32) & !((1 << qss) - 1)) +
bypassed_lsb` (wrapping `i32` arithmetic). -/
def applyPrimitive31ea (maxMatrixChan : Nat) (quantiserStepSize : List Nat)
    (p : Primitive31ea) (buf : List Int) : List Int :=
  buf.set p.matrixCh
    (wrap32 (clearLowBits (quantiserStepSize.getD p.matrixCh 0 % 32)
        (wrap32 (sar ((List.range (maxMatrixChan + 3)).foldl
          (fun a chi => wrap64 (a + buf.getD chi 0 * p.mCoeff.getD chi 0)) 0) 18)) +
      p.bypassedLsb))

/-- One sample period of the 0x31EA lossless-matrix kernel: write the
two noise channels at `max_matrix_chan + 1` and `max_matrix_chan + 2`,
advance the dither seed, then apply each primitive in order.  Returns
the updated sample row and the new seed.  The noise writes index the
fixed-width sample row (`[i32; 16]` in the source); when
`max_matrix_chan + 2` falls outside the row -- reachable, since
`max_matrix_chan` is an unvalidated 4-bit field -- the source panics
with an index out of bounds, modelled here as `none`. -/
def decode31eaSampleStep (maxMatrixChan ditherShift seed : Nat)
    (primitives : List Primitive31ea) (quantiserStepSize : List Nat)
    (buf : List Int) : Option (List Int × Nat) :=
  if maxMatrixChan + 2 < buf.length then
    some (primitives.foldl (fun b p => applyPrimitive31ea maxMatrixChan quantiserStepSize p b)
      ((buf.set (maxMatrixChan + 1) (noiseA seed ditherShift)).set
        (maxMatrixChan + 2) (noiseB seed ditherShift)),
      advanceSeed seed)
  else none

/-- The claim's noise formula: the 8-bit sign-extension of the seed tap,
shifted left by `dither_shift` (sign-extend first, then shift, with no
further truncation). -/
def specNoise (tap ditherShift : Nat) : Int :=
  toSigned8 tap * 2 ^ ditherShift

/-- The claim's accumulator `Σ_{chi=0}^{max_matrix_chan+2}
coeff[chi]·chan[chi]` over unbounded integers. -/
def specAcc (maxMatrixChan : Nat) (p : Primitive31ea) (buf : List Int) : Int :=
  (List.range (maxMatrixChan + 3)).foldl
    (fun a chi => a + buf.getD chi 0 * p.mCoeff.getD chi 0) 0

/-- The claim's primitive-matrix formula over unbounded integers:
`target = ((Σ coeff·chan) >> 18 & ~((1 << qss) - 1)) + bypassed_lsb`. -/
def specPrimitiveTarget (maxMatrixChan : Nat) (qss : Nat) (p : Primitive31ea)
    (buf : List Int) : Int :=
  clearLowBits qss (sar (specAcc maxMatrixChan p buf) 18) + p.bypassedLsb

/-- All-zero 16-entry sample row. -/
def zeros16 : List Int := List.replicate 16 0

/-- All-zero 16-entry quantiser-step-size table. -/
def qss16 : List Nat := List.replicate 16 0

/-- A client operation on an extractor: push bytes, or pull one item
from the iterator. -/
inductive ExOp where
  | push (data : List Nat)
  | pull

/-- Whether a yielded item is `Err(InsufficientData)`. -/
def isInsufficientItem : Option (Except ExtractError FrameM) → Bool
  | some (.error .InsufficientData) => true
  | _ => false

/-- Run a sequence of operations from a state, counting `push_bytes`
calls and yielded `InsufficientData` results. -/
def countRun : ExtractorState → List ExOp → Nat × Nat
  | _, [] => (0, 0)
  | s, .push d :: ops =>
      ((countRun (pushBytes s d) ops).1 + 1, (countRun (pushBytes s d) ops).2)
  | s, .pull :: ops =>
      if isInsufficientItem (extractorNext s).1 then
        ((countRun (extractorNext s).2 ops).1, (countRun (extractorNext s).2 ops).2 + 1)
      else countRun (extractorNext s).2 ops

/-- A locked extractor state holding a minimal 6-byte non-major-sync
access unit with a zero length field, used as a C6 witness. -/
def c6WitnessState : ExtractorState :=
  { buffer := [0, 0, 0, 0, 0, 0x0F], timestamp := none, inited := true,
    locked := true, ioCounter := 1, substreams := 1, errorCount := 0,
    framesProcessed := 0 }

/-- C2: the presentation map built from
`(substream_info = 0b11001100, extended_substream_info = 0b00000001)`. -/
def c2Map : PresentationMap :=
  PresentationMap.with_substream_info 0b11001100 0b00000001

/-! ## Theorems -/

theorem wrap32_eq_self {x : Int} (h₁ : -(2 ^ 31) ≤ x) (h₂ : x < 2 ^ 31) :
    wrap32 x = x := by
  unfold wrap32
  omega

theorem wrap64_eq_self {x : Int} (h₁ : -(2 ^ 63) ≤ x) (h₂ : x < 2 ^ 63) :
    wrap64 x = x := by
  unfold wrap64
  omega

/-- C2 -- The presentation map is a pure function of
`(substream_info, extended_substream_info)`; built from
`(0b11001100, 0b00000001)` it has masks `[1, 3, 4, 12]`, its maximal
independent presentation is 3, and presentation indices 0, 1, 2 are
classified `DownmixOf 1`, `Independent`, `DownmixOf 3` respectively. -/
theorem c2_presentation_map :
    c2Map.masks = [1, 3, 4, 12] ∧
    c2Map.max_independent_presentation = some 3 ∧
    c2Map.presentation_type_by_index 0 = .DownmixOf 1 ∧
    c2Map.presentation_type_by_index 1 = .Independent ∧
    c2Map.presentation_type_by_index 2 = .DownmixOf 3 := by
  decide

/-- C4 counterexample -- the claim says the parser accepts 0x31EA only
in substream 0, but the sync-word validation of `RestartHeader::read`
accepts 0x31EA in substream 2 (with any `substream_info`, here 0). -/
theorem c4_counterexample :
    readAndCheckRestartSyncWord 0x31EA 2 0 = .ok .A := by
  rfl

/-- C4 (amended) -- the sync-word validation accepts exactly: 0x31EA
anywhere except substream 1 with bit 3 of `substream_info` clear;
0x31EB anywhere except substream 0; 0x31EC only in substream 3.  Any
other 14-bit value panics in `From<u16> for RestartSyncWord`, and an
illegal combination is rejected with the matching error. -/
theorem c4_sync_word_validation (value substreamIndex substreamInfo : Nat) :
    (∃ w, readAndCheckRestartSyncWord value substreamIndex substreamInfo = .ok w) ↔
      ((value = 0x31EA ∧ ¬(substreamIndex = 1 ∧ substreamInfo &&& 8 = 0)) ∨
        (value = 0x31EB ∧ substreamIndex ≠ 0) ∨
        (value = 0x31EC ∧ substreamIndex = 3)) := by
  unfold readAndCheckRestartSyncWord restartSyncWordFromU16 checkRestartSyncWord
  split_ifs with h₁ h₂ h₃ <;> simp_all

/-- C4 witness for `c4_sync_word_validation`. -/
theorem c4_sync_word_validation_witness :
    (∃ w, readAndCheckRestartSyncWord 0x31EB 2 0 = Except.ok w) ∧
      readAndCheckRestartSyncWord 0x31EC 0 0 = .error (.InvalidSyncC 0x31EC) ∧
      readAndCheckRestartSyncWord 0x1234 0 0 = .error .panicked := by
  refine ⟨(c4_sync_word_validation 0x31EB 2 0).mpr (by simp), by rfl, by rfl⟩

/-- The block-count loop only succeeds with more blocks than it started
with, at most 5, and at most 3 for FBA streams. -/
theorem readSegmentBlocks_ok_bound (fba : Bool) :
    ∀ flags k n, readSegmentBlocks fba flags k = .ok n →
      k < n ∧ n ≤ 5 ∧ (fba = true → n ≤ 3) := by
  intro flags
  induction flags with
  | nil =>
    intro k n h
    unfold readSegmentBlocks at h
    split_ifs at h
  | cons b rest ih =>
    intro k n h
    unfold readSegmentBlocks at h
    by_cases hg : k > 4 ∨ (k ≥ 3 ∧ fba = true)
    · rw [if_pos hg] at h
      exact absurd h (by simp)
    · rw [if_neg hg] at h
      push_neg at hg
      cases b with
      | true =>
        simp only [if_pos, Except.ok.injEq] at h
        refine ⟨by omega, by omega, fun hf => ?_⟩
        rcases Nat.lt_or_ge k 3 with hk | hk
        · omega
        · exact absurd hf (hg.2 hk)
      | false =>
        simp only [Bool.false_eq_true, if_false] at h
        have := ih (k + 1) n h
        exact ⟨by omega, this.2.1, this.2.2⟩

/-- C7 counterexample -- the claim says any segment of 1..=4 blocks is
accepted, but for an FBA stream (the only implemented format) the block
loop of `SubstreamSegment::read` fails with `TooManyBlocks` as soon as a
4th block would be read: a segment whose `last_block_in_segment` flags
announce exactly 4 blocks is rejected. -/
theorem c7_counterexample :
    readSegmentBlocks true [false, false, false, true] 0 =
      .error (.TooManyBlocks 3) := by
  rfl

/-- C7 (amended) -- the loop reads blocks until the 1-bit last-block
flag is set; for FBA streams it accepts exactly 1..=3 blocks and fails
with `TooManyBlocks` when a 4th block would be read, and for non-FBA
streams it accepts up to 5 blocks and fails with `TooManyBlocks` when a
6th would be read. -/
theorem c7_block_loop :
    (∀ flags n, readSegmentBlocks true flags 0 = .ok n → 1 ≤ n ∧ n ≤ 3) ∧
      (∀ flags, readSegmentBlocks true (false :: false :: false :: flags) 0 =
        .error (.TooManyBlocks 3)) ∧
      (∀ flags n, readSegmentBlocks false flags 0 = .ok n → 1 ≤ n ∧ n ≤ 5) ∧
      (∀ flags,
        readSegmentBlocks false (false :: false :: false :: false :: false :: flags) 0 =
          .error (.TooManyBlocks 5)) := by
  refine ⟨?_, ?_, ?_, ?_⟩
  · intro flags n h
    have := readSegmentBlocks_ok_bound true flags 0 n h
    exact ⟨this.1, this.2.2 rfl⟩
  · intro flags
    show readSegmentBlocks true (false :: false :: false :: flags) 0 = _
    unfold readSegmentBlocks
    norm_num
    unfold readSegmentBlocks
    norm_num
    unfold readSegmentBlocks
    norm_num
    unfold readSegmentBlocks
    norm_num
  · intro flags n h
    have := readSegmentBlocks_ok_bound false flags 0 n h
    exact ⟨this.1, this.2.1⟩
  · intro flags
    unfold readSegmentBlocks
    norm_num
    unfold readSegmentBlocks
    norm_num
    unfold readSegmentBlocks
    norm_num
    unfold readSegmentBlocks
    norm_num
    unfold readSegmentBlocks
    norm_num
    unfold readSegmentBlocks
    norm_num

/-- C7 witness for `c7_block_loop`. -/
theorem c7_block_loop_witness :
    readSegmentBlocks true [false, true] 0 = .ok 2 ∧ 1 ≤ 2 ∧ 2 ≤ 3 := by
  exact ⟨by rfl, c7_block_loop.1 [false, true] 2 (by rfl)⟩

/-- C8 -- calling `decode_presentation` with presentation index 4 on a
fresh decoder panics with an index-out-of-bounds in
`update_presentation` (`presentations[presentation] = true` on a
`[bool; 4]`); the declared error `DecodeError::InvalidPresentation` is
never constructed anywhere in the crate, so the claimed `Err` is never
returned.  For every index 0..=3 the same call succeeds and resolves to
an effective presentation within 0..=3, so all presentation-array
indexing stays in bounds. -/
theorem c8_invalid_presentation_panics :
    decodePresentation decoderDefault c8Au 4 = .error .panicked ∧
      presentationOfResult (decodePresentation decoderDefault c8Au 0) = some 0 ∧
      presentationOfResult (decodePresentation decoderDefault c8Au 1) = some 1 ∧
      presentationOfResult (decodePresentation decoderDefault c8Au 2) = some 2 ∧
      presentationOfResult (decodePresentation decoderDefault c8Au 3) = some 3 := by
  refine ⟨rfl, rfl, rfl, rfl, rfl⟩

/-- The zero-sample loop never changes `zero_samples` when the
requested presentation's segment carries no terminator with
`zero_samples_indicated` (only the arm `i == presentation &&
terminator.zero_samples_indicated` writes it). -/
theorem zeroSampleLoop_const (au : AccessUnitM) (p : Nat)
    (hp : ∀ t, (au.substreamSegment.getD p { terminator := none }).terminator = some t →
      t.zeroSamplesIndicated = false) :
    ∀ l st, (zeroSampleLoop au p l st).zeroSamples = st.zeroSamples := by
  intro l
  induction l with
  | nil => intro st; rfl
  | cons i rest ih =>
    intro st
    unfold zeroSampleLoop
    split_ifs with hmask
    · exact ih st
    · rcases hseg : (au.substreamSegment.getD i { terminator := none }).terminator with _ | t
      · simp only [hseg]
        exact ih st
      · simp only [hseg]
        split_ifs with hcond
        · rcases hcond with ⟨hip, hzs⟩
          subst hip
          rw [hp t hseg] at hzs
          cases hzs
        · exact ih st

/-- The zero-sample loop changes nothing but `zero_samples`. -/
theorem zeroSampleLoop_frame (au : AccessUnitM) (p : Nat) :
    ∀ l st, (zeroSampleLoop au p l st) =
      { st with zeroSamples := (zeroSampleLoop au p l st).zeroSamples } := by
  intro l
  induction l with
  | nil => intro st; rfl
  | cons i rest ih =>
    intro st
    unfold zeroSampleLoop
    split_ifs with hmask
    · exact ih st
    · rcases hseg : (au.substreamSegment.getD i { terminator := none }).terminator with _ | t
      · simp only [hseg]
        exact ih st
      · simp only [hseg]
        split_ifs with hcond
        · exact ih { st with zeroSamples := t.zeroSamples }
        · exact ih st

/-- C3 counterexample -- decoding `c3Au1` (terminator with 5 trailing
zero samples) and then `c3Au2` (no terminator at all) at presentation 0
returns `sample_length = 35` for the second access unit as well, because
`zero_samples` is never reset between access units; the claim requires
`sample_length = samples_per_au = 40` for an access unit whose target
segment has no zero-samples terminator. -/
theorem c3_counterexample :
    decodePresentation decoderDefault c3Au1 0 = .ok (35, c3State1) ∧
      decodePresentation c3State1 c3Au2 0 = .ok (35, c3State1) ∧
      (c3Au2.substreamSegment.getD 0 { terminator := none }).terminator = none ∧
      c3State1.samplesPerAu = 40 := by
  refine ⟨rfl, rfl, rfl, rfl⟩

/-- C3 (amended) -- for every access unit returned by
`decode_presentation`, `sample_length` equals `samples_per_au` minus the
decoder's running `zero_samples` value.  That value is initially 0 and
is only rewritten when the requested presentation's segment in the
current access unit carries a terminator with zero-samples-indicated;
when it does not, `zero_samples` keeps its previous value, so
`sample_length = samples_per_au` holds only if no earlier access unit
recorded a nonzero trailing-zero count. -/
theorem majorSyncUpdate_zeroSamples (ms : MajorSyncM) (st st₂ : DecoderStateM)
    (h : majorSyncUpdateDecoderState ms st = .ok st₂) :
    st₂.zeroSamples = st.zeroSamples := by
  unfold majorSyncUpdateDecoderState at h
  rcases hfreq : mapSamplingFreq ms.audioSamplingFrequency1 with _ | freq <;>
    simp only [hfreq] at h
  · cases h
  · split_ifs at h <;> (cases h; rfl)

theorem auUpdate_zeroSamples (au : AccessUnitM) (st st₂ : DecoderStateM)
    (h : auUpdateDecoderState au st = .ok st₂) :
    st₂.zeroSamples = st.zeroSamples := by
  unfold auUpdateDecoderState at h
  rcases hms : au.majorSyncInfo with _ | ms <;> simp only [hms] at h
  · cases h
    rfl
  · exact majorSyncUpdate_zeroSamples ms st st₂ h

theorem updatePresentation_zeroSamples (st st₃ : DecoderStateM) (p : Nat)
    (h : updatePresentation st p = .ok st₃) :
    st₃.zeroSamples = st.zeroSamples := by
  unfold updatePresentation at h
  rcases hpm : st.presentationMap with _ | pm <;> simp only [hpm] at h
  · cases h
  · by_cases hge : p ≥ MAX_PRESENTATIONS
    · rw [if_pos hge] at h
      cases h
    · rw [if_neg hge] at h
      split at h <;>
        first
          | (split_ifs at h <;> (cases h; rfl))
          | (cases h; rfl)

theorem c3_sample_length (st : DecoderStateM) (au : AccessUnitM) (p len : Nat)
    (st' : DecoderStateM)
    (h : decodePresentation st au p = .ok (len, st'))
    (hterm : ∀ t, (au.substreamSegment.getD p { terminator := none }).terminator = some t →
      t.zeroSamplesIndicated = false) :
    len = st'.samplesPerAu - st'.zeroSamples ∧
      st'.zeroSamples = st.zeroSamples ∧
      (st.zeroSamples = 0 → len = st'.samplesPerAu) := by
  unfold decodePresentation at h
  rcases hda : decodeAccessUnit st au p with e | st₁ <;> rw [hda] at h
  · cases h
  · simp only [Except.ok.injEq, Prod.mk.injEq] at h
    obtain ⟨hlen, hst⟩ := h
    subst hst
    have hzs : st₁.zeroSamples = st.zeroSamples := by
      unfold decodeAccessUnit at hda
      rcases hau : auUpdateDecoderState au st with e | st₂ <;> rw [hau] at hda
      · cases hda
      · simp only [] at hda
        rcases hup : (if ¬st₂.valid then updatePresentation st₂ p else .ok st₂) with e | st₃ <;>
          rw [hup] at hda
        · cases hda
        · have hzs₃ : st₃.zeroSamples = st₂.zeroSamples := by
            by_cases hv : ¬st₂.valid
            · rw [if_pos hv] at hup
              exact updatePresentation_zeroSamples st₂ st₃ p hup
            · rw [if_neg hv] at hup
              cases hup
              rfl
          simp only [] at hda
          cases hda
          simp only [zeroSampleLoop_const au p hterm, hzs₃,
            auUpdate_zeroSamples au st st₂ hau]
    refine ⟨hlen.symm, hzs, fun h0 => ?_⟩
    omega

/-- C3 witness for `c3_sample_length`. -/
theorem c3_sample_length_witness :
    40 = c3State0.samplesPerAu - c3State0.zeroSamples ∧
      c3State0.zeroSamples = decoderDefault.zeroSamples ∧
      (decoderDefault.zeroSamples = 0 → 40 = c3State0.samplesPerAu) := by
  exact c3_sample_length decoderDefault c3Au2 0 40 c3State0 rfl (by intro t ht; cases ht)

theorem wrap32_modeq (x : Int) : wrap32 x % 2 ^ 32 = x % 2 ^ 32 := by
  unfold wrap32
  omega

theorem wrap32_congr {x y : Int} (h : x % 2 ^ 32 = y % 2 ^ 32) : wrap32 x = wrap32 y := by
  unfold wrap32
  omega

theorem wrap32_add_wrap_left (x y : Int) : wrap32 (wrap32 x + y) = wrap32 (x + y) := by
  refine wrap32_congr ?_
  conv_lhs => rw [Int.add_emod, wrap32_modeq, ← Int.add_emod]

theorem wrap32_sub_wrap_left (x y : Int) : wrap32 (wrap32 x - y) = wrap32 (x - y) := by
  refine wrap32_congr ?_
  conv_lhs => rw [Int.sub_emod, wrap32_modeq, ← Int.sub_emod]

theorem wrap32_mul_wrap_left (x y : Int) : wrap32 (wrap32 x * y) = wrap32 (x * y) := by
  refine wrap32_congr ?_
  conv_lhs => rw [Int.mul_emod, wrap32_modeq, ← Int.mul_emod]

/-- `getHuffman` only succeeds for tables 1, 2, 3. -/
theorem getHuffman_table_range (t : Nat) (bits : List Bool) (r : Int × List Bool)
    (h : getHuffman t bits = some r) : t = 1 ∨ t = 2 ∨ t = 3 := by
  match t with
  | 1 => exact Or.inl rfl
  | 2 => exact Or.inr (Or.inl rfl)
  | 3 => exact Or.inr (Or.inr rfl)
  | 0 => cases h
  | n + 4 => cases h

/-- C1 counterexample -- decoding a table-0 sample with
`huff_lsbs = 2`, `quantiser_step_size = 1`, `huff_offset = 3` from the
single bit `1` yields residual 6 (`(lsbs - center + offset) <<
quantiser_step_size = (1 - 1 + 3) << 1`), while the claimed formula
`(huff + lsbs << quantiser_step_size) + huff_offset` yields
`(0 + 1) << 1 + 3 = 5`: the source shifts the offset too. -/
theorem c1_counterexample :
    huffDecodeSample 0x31EA 0 0 0 3 0 2 1 [true] = .ok (6, []) ∧
      claimResidual 0 1 1 3 = 5 := by
  exact ⟨rfl, rfl⟩

/-- A successful `readHuffLsbs` forces `huff_type <= 3`, returns code 0
for table 0, and consumes bits from the front. -/
theorem readHuffLsbs_ok_shape (t ls : Nat) (bits : List Bool) (code : Int)
    (lsbs : Nat) (rest : List Bool)
    (h : readHuffLsbs t ls bits = some (code, lsbs, rest)) :
    t ≤ 3 ∧ (t = 0 → code = 0) := by
  unfold readHuffLsbs at h
  by_cases ht0 : t ≠ 0
  · rw [if_pos ht0] at h
    rcases hg : getHuffman t bits with _ | r <;> rw [hg] at h
    · cases h
    · refine ⟨?_, fun h0 => absurd h0 ht0⟩
      rcases getHuffman_table_range t bits r hg with h1 | h1 | h1 <;> omega
  · rw [if_neg ht0] at h
    push_neg at ht0
    rcases hn : (if ls > 0 then getN ls bits else some (0, bits)) with _ | p <;>
      rw [hn] at h
    · cases h
    · simp only [Option.some.injEq, Prod.mk.injEq] at h
      exact ⟨by omega, fun _ => h.1.symm⟩

/-- `(2 : Int) ^ k` stays inside `i32` for `k < 31`. -/
theorem int_two_pow_lt (k : Nat) (hk : k < 31) : (2 : Int) ^ k < 2 ^ 31 := by
  have h := Nat.pow_lt_pow_right (a := 2) (by norm_num) hk
  exact_mod_cast h

/-- `(2 : Int) ^ k` is above the `i32` lower bound. -/
theorem int_neg_two_pow_le (k : Nat) : -(2 ^ 31 : Int) ≤ 2 ^ k := by
  have h : (0 : Int) ≤ 2 ^ k := by positivity
  linarith

/-- The wrapping chain of `huffRawValue` collapses to a single 32-bit
wrap of the flat expression `lsbs + code·2^lsbs_bits - residCenter`. -/
theorem huffRawValue_eq (huffType lsbsBits : Nat) (code : Int) (lsbs : Nat)
    (hls : lsbsBits ≤ 24) (ht : huffType ≤ 3) (hc0 : huffType = 0 → code = 0) :
    huffRawValue huffType lsbsBits code lsbs =
      wrap32 ((lsbs : Int) + code * 2 ^ lsbsBits - residCenter huffType lsbsBits) := by
  unfold huffRawValue residCenter
  by_cases ht0 : huffType = 0
  · subst ht0
    rw [if_neg (by decide : ¬(0 : Nat) ≠ 0), if_pos rfl, hc0 rfl]
    by_cases hlpos : lsbsBits > 0
    · rw [if_pos hlpos, if_pos hlpos,
        Nat.mod_eq_of_lt (by omega : lsbsBits - 1 < 32),
        wrap32_eq_self (int_neg_two_pow_le _) (int_two_pow_lt _ (by omega))]
      ring_nf
    · rw [if_neg hlpos, if_neg hlpos]
      ring_nf
  · rw [if_pos ht0, if_neg ht0]
    simp only []
    rw [Nat.mod_eq_of_lt (by omega : lsbsBits < 32)]
    by_cases hshift : ((lsbsBits : Nat) : Int) + (2 - (huffType : Int)) < 0
    · rw [if_pos hshift, if_neg (by omega : ¬lsbsBits + 2 ≥ huffType)]
      rw [wrap32_sub_wrap_left]
      refine wrap32_congr ?_
      rw [show (lsbs : Int) + wrap32 (code * 2 ^ lsbsBits) - 0 =
        wrap32 (code * 2 ^ lsbsBits) + (lsbs : Int) by ring]
      rw [show (lsbs : Int) + code * 2 ^ lsbsBits - 0 =
        code * 2 ^ lsbsBits + (lsbs : Int) by ring]
      rw [Int.add_emod, wrap32_modeq, ← Int.add_emod]
    · rw [if_neg hshift, if_pos (by omega : lsbsBits + 2 ≥ huffType)]
      rw [show (((lsbsBits : Nat) : Int) + (2 - (huffType : Int))).toNat =
        lsbsBits + 2 - huffType by omega]
      rw [Nat.mod_eq_of_lt (by omega : lsbsBits + 2 - huffType < 32),
        wrap32_eq_self (x := (2 : Int) ^ (lsbsBits + 2 - huffType))
          (int_neg_two_pow_le _) (int_two_pow_lt _ (by omega))]
      rw [wrap32_sub_wrap_left]
      refine wrap32_congr ?_
      rw [show (lsbs : Int) + wrap32 (code * 2 ^ lsbsBits) -
          2 ^ (lsbsBits + 2 - huffType) =
        wrap32 (code * 2 ^ lsbsBits) + ((lsbs : Int) -
          2 ^ (lsbsBits + 2 - huffType)) by ring]
      rw [show (lsbs : Int) + code * 2 ^ lsbsBits - 2 ^ (lsbsBits + 2 - huffType) =
        code * 2 ^ lsbsBits + ((lsbs : Int) - 2 ^ (lsbsBits + 2 - huffType)) by ring]
      rw [Int.add_emod, wrap32_modeq, ← Int.add_emod]

/-- `huffAudioData` collapses to a single 32-bit wrap of the flat
residual formula. -/
theorem huffAudioData_eq (huffType lsbsBits quantiserStepSize : Nat) (code : Int)
    (lsbs : Nat) (huffOffset : Int)
    (hls : lsbsBits ≤ 24) (hq : quantiserStepSize ≤ 24) (ht : huffType ≤ 3)
    (hc0 : huffType = 0 → code = 0) :
    huffAudioData huffType lsbsBits quantiserStepSize code lsbs huffOffset =
      wrap32 (((lsbs : Int) + code * 2 ^ lsbsBits -
        residCenter huffType lsbsBits + huffOffset) * 2 ^ quantiserStepSize) := by
  unfold huffAudioData
  rw [huffRawValue_eq huffType lsbsBits code lsbs hls ht hc0,
    Nat.mod_eq_of_lt (by omega : quantiserStepSize < 32),
    wrap32_add_wrap_left, wrap32_mul_wrap_left]

/-- C1 (amended) -- for every sample decoded on a substream with
restart sync word other than 0x31EC (where `huff_lsbs <= 24` as the
parser enforces): the residual equals the 32-bit wrap of
`(lsbs + huff·2^lsbs_bits - center + huff_offset) << quantiser_step_size`
-- the Huffman/LSB value is centered by `residCenter` and the offset is
added before (not after) the quantiser shift; a successfully decoded
residual always lies in the signed 24-bit range (a value outside it
fails with a saturation error); and the Huffman-plus-LSB read is at
most 29 bits unless this is the min channel and the combined
Huffman-plus-bypassed-LSB bits exceed 32 (in which case the source only
warns). -/
theorem c1_residual_decode (restartSyncWord minChan chi bypassedLsbBits : Nat)
    (huffOffset : Int) (huffType huffLsbs quantiserStepSize : Nat)
    (bits rest : List Bool) (v : Int)
    (h : huffDecodeSample restartSyncWord minChan chi bypassedLsbBits huffOffset
      huffType huffLsbs quantiserStepSize bits = .ok (v, rest))
    (hrsw : restartSyncWord ≠ 0x31EC) (hlsbs : huffLsbs ≤ 24) :
    (-(2 ^ 23) ≤ v ∧ v < 2 ^ 23) ∧
      (bits.length - rest.length ≤ 29 ∨
        (chi = minChan ∧ bits.length - rest.length + bypassedLsbBits > 32)) ∧
      ∃ code lsbs,
        readHuffLsbs huffType (huffLsbs - quantiserStepSize) bits =
          some (code, lsbs, rest) ∧
        v = wrap32 (((lsbs : Int) + code * 2 ^ (huffLsbs - quantiserStepSize) -
          residCenter huffType (huffLsbs - quantiserStepSize) + huffOffset) *
          2 ^ quantiserStepSize) := by
  unfold huffDecodeSample at h
  by_cases hq : quantiserStepSize > huffLsbs
  · rw [if_pos hq] at h
    cases h
  · rw [if_neg hq] at h
    rcases hr : readHuffLsbs huffType (huffLsbs - quantiserStepSize) bits with
      _ | ⟨code, lsbs, bits₂⟩ <;> simp only [hr] at h
    · cases h
    · rw [if_pos hrsw] at h
      obtain ⟨ht3, hc0⟩ := readHuffLsbs_ok_shape _ _ _ _ _ _ hr
      have heq := huffAudioData_eq huffType (huffLsbs - quantiserStepSize)
        quantiserStepSize code lsbs huffOffset (by omega) (by omega) ht3 hc0
      split_ifs at h with h1 h2 h3 h4
      · cases h
        exact ⟨⟨not_lt.mp h2, not_le.mp h1⟩, Or.inr h3, code, lsbs, rfl, heq⟩
      · cases h
        exact ⟨⟨not_lt.mp h2, not_le.mp h1⟩, Or.inl (not_lt.mp h4), code, lsbs, rfl, heq⟩

/-- C1 witness for `c1_residual_decode`. -/
theorem c1_residual_decode_witness :
    (-(2 ^ 23) ≤ (-2 : Int) ∧ (-2 : Int) < 2 ^ 23) ∧
      ([true, false, false].length - ([] : List Bool).length ≤ 29 ∨
        (0 = 0 ∧ [true, false, false].length - ([] : List Bool).length + 0 > 32)) ∧
      ∃ code lsbs,
        readHuffLsbs 1 (0 - 0) [true, false, false] = some (code, lsbs, []) ∧
        (-2 : Int) = wrap32 (((lsbs : Nat) + code * 2 ^ (0 - 0) -
          residCenter 1 (0 - 0) + 0) * 2 ^ 0) := by
  exact c1_residual_decode 0x31EA 0 0 0 0 1 0 0 [true, false, false] [] (-2) rfl
    (by decide) (by decide)

set_option maxRecDepth 100000 in
/-- C9 counterexample -- with `dither_seed = 0x200000` (so `seed >> 15
= 0x40`) and `dither_shift = 1`, the 0x31EA kernel writes noise value
-128 at matrix channel `max_matrix_chan + 1` (the `i8` shift truncates
`0x40 << 1 = 0x80` and the final cast sign-extends), while the claim's
sign-extend-then-shift formula gives `64 << 1 = 128`. -/
theorem c9_counterexample :
    (decode31eaSampleStep 0 1 0x200000 [] qss16 zeros16).map (fun r => r.1.getD 1 0) =
        some (-128) ∧
      specNoise (0x200000 >>> 15) 1 = 128 := by
  exact ⟨by decide, by decide⟩

set_option maxRecDepth 100000 in
/-- Truncating an 8-bit value inside `i8` before sign-extending equals
the 8-bit two's complement wrap of sign-extend-then-shift. -/
theorem toSigned8_shift_wrap8 :
    ∀ n < 256, ∀ ds < 8, toSigned8 (n <<< ds) = wrap8 (toSigned8 n * 2 ^ ds) := by
  decide

/-- `wrap64` folding of in-range products agrees with the plain sum. -/
theorem wrap64_foldl_eq (f : Nat → Int) (B : Int) (hB : 0 ≤ B) :
    ∀ (l : List Nat) (a A : Int), (∀ chi ∈ l, |f chi| ≤ B) → |a| ≤ A →
      A + l.length * B < 2 ^ 63 →
      l.foldl (fun acc chi => wrap64 (acc + f chi)) a =
        l.foldl (fun acc chi => acc + f chi) a := by
  intro l
  induction l with
  | nil => intros; rfl
  | cons x rest ih =>
    intro a A hf ha hlen
    have hlen' : A + ((rest.length : Int) + 1) * B < 2 ^ 63 := by
      have : ((x :: rest).length : Int) = (rest.length : Int) + 1 := by
        simp [List.length_cons]
      rw [this] at hlen
      exact hlen
    have hrest : (0 : Int) ≤ (rest.length : Int) * B :=
      mul_nonneg (Int.ofNat_nonneg _) hB
    have hfx : |f x| ≤ B := hf x (List.mem_cons_self x rest)
    have hsum : |a + f x| ≤ A + B :=
      le_trans (abs_add a (f x)) (by have := abs_le.mp ha; linarith [abs_le.mp hfx])
    simp only [List.foldl_cons]
    have hw : wrap64 (a + f x) = a + f x := by
      apply wrap64_eq_self
      · have := abs_le.mp hsum
        linarith
      · have := abs_le.mp hsum
        linarith
    rw [hw]
    exact ih (a + f x) (A + B) (fun chi hc => hf chi (List.mem_cons_of_mem x hc)) hsum
      (by linarith)

/-- C9 (amended) -- the 0x31EA kernel satisfies: (i) the `u32` seed
recurrence equals the claim's formula over unbounded naturals; (ii)
for the 23-bit seed, each noise channel equals the 8-bit two's
complement wrap of the claim's sign-extend-then-shift value taken at
shift `dither_shift % 8` -- the `i8` shift masks its unvalidated 4-bit
shift amount mod 8 and truncates to 8 bits before the sign-extending
cast (the counterexample exhibits the truncation); (iii) on the
16-entry sample row the kernel step panics with an index out of
bounds exactly when the unvalidated 4-bit `max_matrix_chan` is 14 or
15; (iv) for the remaining `max_matrix_chan ≤ 13`, a primitive matrix
application equals the claim's unbounded formula
`((Σ coeff·chan) >> 18 & ~((1 << qss) - 1)) + bypassed_lsb` whenever
the row values are in `i32` range, the coefficients in 27-bit range,
`qss < 32`, and the shifted accumulator and final target fit in
`i32`. -/
theorem c9_31ea_kernel :
    (∀ seed, advanceSeed seed = specSeedAdvance seed) ∧
      (∀ seed ds, seed < 2 ^ 23 →
        noiseA seed ds = wrap8 (specNoise (seed >>> 15) (ds % 8)) ∧
          noiseB seed ds = wrap8 (specNoise ((seed >>> 7) % 256) (ds % 8))) ∧
      (∀ (mmc ds seed : Nat) (prims : List Primitive31ea) (qssL : List Nat) (buf : List Int),
        buf.length = 16 →
        (decode31eaSampleStep mmc ds seed prims qssL buf = none ↔ 14 ≤ mmc)) ∧
      (∀ (mmc : Nat) (qssL : List Nat) (p : Primitive31ea) (buf : List Int),
        mmc + 3 ≤ 16 →
        (∀ chi, |buf.getD chi 0| < 2 ^ 31) →
        (∀ chi, |p.mCoeff.getD chi 0| ≤ 2 ^ 26) →
        qssL.getD p.matrixCh 0 < 32 →
        |sar (specAcc mmc p buf) 18| < 2 ^ 31 →
        |specPrimitiveTarget mmc (qssL.getD p.matrixCh 0) p buf| < 2 ^ 31 →
        applyPrimitive31ea mmc qssL p buf =
          buf.set p.matrixCh (specPrimitiveTarget mmc (qssL.getD p.matrixCh 0) p buf)) := by
  refine ⟨?_, ?_, ?_, ?_⟩
  · intro seed
    refine Nat.eq_of_testBit_eq fun i => ?_
    unfold advanceSeed specSeedAdvance
    rw [show (0x7FFFFF : Nat) = 2 ^ 23 - 1 by norm_num]
    simp only [Nat.testBit_and, Nat.testBit_xor, Nat.testBit_mod_two_pow,
      Nat.testBit_two_pow_sub_one]
    by_cases hi : i < 23
    · have hi32 : i < 32 := by omega
      simp [hi, hi32]
    · simp [hi]
  · intro seed ds hseed
    have h15 : seed >>> 15 < 256 := by
      rw [Nat.shiftRight_eq_div_pow]
      omega
    have hds8 : ds % 8 < 8 := Nat.mod_lt _ (by norm_num)
    constructor
    · unfold noiseA specNoise
      rw [Nat.mod_eq_of_lt h15]
      exact toSigned8_shift_wrap8 (seed >>> 15) h15 (ds % 8) hds8
    · unfold noiseB specNoise
      have h7 : (seed >>> 7) % 256 < 256 := Nat.mod_lt _ (by norm_num)
      exact toSigned8_shift_wrap8 ((seed >>> 7) % 256) h7 (ds % 8) hds8
  · intro mmc ds seed prims qssL buf hlen
    unfold decode31eaSampleStep
    rw [hlen]
    by_cases h : mmc + 2 < 16
    · rw [if_pos h]
      constructor
      · intro hc
        exact Option.noConfusion hc
      · intro hc
        exact absurd hc (by omega)
    · rw [if_neg h]
      constructor
      · intro _
        omega
      · intro _
        rfl
  · intro mmc qssL p buf h16 hbuf hcf hq hsar htgt
    unfold applyPrimitive31ea
    have hacc : (List.range (mmc + 3)).foldl
        (fun a chi => wrap64 (a + buf.getD chi 0 * p.mCoeff.getD chi 0)) 0 =
        specAcc mmc p buf := by
      unfold specAcc
      refine wrap64_foldl_eq _ (2 ^ 57) (by norm_num) _ 0 0 ?_ (by simp) ?_
      · intro chi _
        rw [abs_mul]
        calc |buf.getD chi 0| * |p.mCoeff.getD chi 0| ≤ 2 ^ 31 * 2 ^ 26 := by
              exact mul_le_mul (le_of_lt (hbuf chi)) (hcf chi) (abs_nonneg _)
                (by norm_num)
          _ = 2 ^ 57 := by norm_num
      · have : ((List.range (mmc + 3)).length : Int) = (mmc : Int) + 3 := by
          simp [List.length_range]
        rw [this]
        have : (mmc : Int) + 3 ≤ 16 := by exact_mod_cast h16
        nlinarith
    rw [hacc]
    have hw32 : wrap32 (sar (specAcc mmc p buf) 18) = sar (specAcc mmc p buf) 18 := by
      have := abs_lt.mp hsar
      exact wrap32_eq_self (by linarith) (by linarith)
    rw [hw32, Nat.mod_eq_of_lt hq]
    have htgt' : wrap32 (clearLowBits (qssL.getD p.matrixCh 0)
        (sar (specAcc mmc p buf) 18) + p.bypassedLsb) =
        specPrimitiveTarget mmc (qssL.getD p.matrixCh 0) p buf := by
      unfold specPrimitiveTarget at htgt ⊢
      have := abs_lt.mp htgt
      exact wrap32_eq_self (by linarith) (by linarith)
    rw [htgt']

/-- C9 witness for `c9_31ea_kernel`. -/
theorem c9_31ea_kernel_witness :
    advanceSeed 5 = specSeedAdvance 5 ∧
      noiseA 0 9 = wrap8 (specNoise ((0 : Nat) >>> 15) (9 % 8)) ∧
      (decode31eaSampleStep 14 0 0 [] qss16 zeros16 = none ↔ 14 ≤ 14) ∧
      applyPrimitive31ea 0 [] { matrixCh := 0, mCoeff := [], bypassedLsb := 0 } [] =
        ([] : List Int).set 0
          (specPrimitiveTarget 0 (([] : List Nat).getD 0 0)
            { matrixCh := 0, mCoeff := [], bypassedLsb := 0 } []) := by
  refine ⟨c9_31ea_kernel.1 5, (c9_31ea_kernel.2.1 0 9 (by decide)).1,
    c9_31ea_kernel.2.2.1 14 0 0 [] qss16 zeros16 (by decide), ?_⟩
  exact c9_31ea_kernel.2.2.2 0 [] { matrixCh := 0, mCoeff := [], bypassedLsb := 0 } []
    (by decide) (fun chi => by simp [List.getD])
    (fun chi => by simp [List.getD]) (by decide)
    (by decide) (by decide)

/-- A `yield` outcome of the `'locked` body reports the buffer's own
access-unit length, which fits in the buffer. -/
theorem lockedBody2_yield (s : ExtractorState) (skip aul : Nat)
    (h : lockedBody2 s skip = .yield aul) :
    accessUnitLen s.buffer = some aul ∧ aul ≤ s.buffer.length := by
  unfold lockedBody2 at h
  rcases hp : parityWalk s.buffer skip s.substreams with _ | parity <;>
    simp only [hp] at h
  · cases h
  · split_ifs at h with hpar
    rcases ha : accessUnitLen s.buffer with _ | aul₀ <;> simp only [ha] at h
    · cases h
    · split_ifs at h with hlen
      cases h
      exact ⟨rfl, by omega⟩

/-- Same for the full `'locked` body. -/
theorem lockedBody_yield (s : ExtractorState) (aul : Nat)
    (h : lockedBody s = .yield aul) :
    accessUnitLen s.buffer = some aul ∧ aul ≤ s.buffer.length := by
  unfold lockedBody at h
  split_ifs at h with h6 hms h21 hsub
  · rcases hm : majorSyncInfoLen s.buffer with _ | msil <;> simp only [hm] at h
    · cases h
    · exact lockedBody2_yield s (msil + 2) aul h
  · exact lockedBody2_yield s 0 aul h

/-- Every `Ok` frame out of the `next` loop is `buffer.take aul` for a
state whose `'locked` body yielded `aul`. -/
theorem nextGo_ok_frame : ∀ (fuel : Nat) (s : ExtractorState) (r : FrameM)
    (s' : ExtractorState), nextGo fuel s = (some (.ok r), s') →
    ∃ s₁ aul, lockedBody s₁ = .yield aul ∧ r.data = s₁.buffer.take aul := by
  intro fuel
  induction fuel with
  | zero =>
    intro s r s' h
    simp [nextGo] at h
  | succ fuel ih =>
    intro s r s' h
    unfold nextGo at h
    rcases hstep : (if s.locked then (Except.ok (), s) else resync s) with ⟨e, s₁⟩
    rw [hstep] at h
    cases e with
    | error e₀ => simp at h
    | ok u =>
      simp only [] at h
      rcases hlb : lockedBody s₁ with _ | aul | _ <;> simp only [hlb] at h
      · simp at h
      · refine ⟨s₁, aul, hlb, ?_⟩
        simp only [Prod.mk.injEq, Option.some.injEq, Except.ok.injEq] at h
        rw [← h.1]
      · rcases hres : resync (recoverState s₁) with ⟨e₂, s₃⟩
        rw [hres] at h
        cases e₂ with
        | ok u₂ =>
          simp only [] at h
          exact ih s₃ r s' h
        | error e₂ => simp at h

/-- C6 -- every frame yielded `Ok` by the extractor's iterator has byte
length exactly `(first two bytes & 0xFFF) * 2`, reading the bytes of
the frame itself (absent bytes of a zero-length frame read as 0). -/
theorem c6_frame_length (s : ExtractorState) (r : FrameM) (s' : ExtractorState)
    (h : extractorNext s = (some (.ok r), s')) :
    r.data.length =
      2 * (((r.data.getD 0 0 % 256) * 256 + r.data.getD 1 0 % 256) &&& 0xFFF) := by
  unfold extractorNext at h
  split_ifs at h with h0
  · simp at h
  · obtain ⟨s₁, aul, hlb, hdata⟩ := nextGo_ok_frame _ s r s' h
    obtain ⟨ha, hle⟩ := lockedBody_yield s₁ aul hlb
    unfold accessUnitLen at ha
    rcases hb0 : s₁.buffer.get? 0 with _ | b0 <;> rw [hb0] at ha
    · cases ha
    · rcases hb1 : s₁.buffer.get? 1 with _ | b1 <;> rw [hb1] at ha
      · cases ha
      · simp only [Option.some.injEq] at ha
        rw [hdata]
        rcases Nat.eq_zero_or_pos aul with h0a | hpos
        · subst h0a
          simp [List.getD]
        · have haul2 : 2 ≤ aul := by
            rw [← ha, Nat.shiftLeft_eq] at hpos ⊢
            omega
          have hlen : (s₁.buffer.take aul).length = aul := by
            rw [List.length_take]
            omega
          have hg0 : (s₁.buffer.take aul).getD 0 0 = b0 := by
            rw [List.getD_eq_getElem?_getD, List.getElem?_take_of_lt (by omega : 0 < aul),
              ← List.get?_eq_getElem?, hb0]
            rfl
          have hg1 : (s₁.buffer.take aul).getD 1 0 = b1 := by
            rw [List.getD_eq_getElem?_getD, List.getElem?_take_of_lt (by omega : 1 < aul),
              ← List.get?_eq_getElem?, hb1]
            rfl
          rw [hlen, hg0, hg1, ← ha, Nat.shiftLeft_eq]
          omega

/-- C6 witness for `c6_frame_length`. -/
theorem c6_frame_length_witness :
    ([] : List Nat).length =
      2 * (((([] : List Nat).getD 0 0 % 256) * 256 + ([] : List Nat).getD 1 0 % 256) &&&
        0xFFF) := by
  exact c6_frame_length c6WitnessState { timestamp := none, data := [] }
    { c6WitnessState with framesProcessed := 1 } rfl

theorem recoverState_ioCounter (s : ExtractorState) :
    (recoverState s).ioCounter = s.ioCounter := by
  unfold recoverState
  split_ifs <;> rfl

theorem resyncAdvance_ioCounter (s : ExtractorState) (offset : Nat) :
    (resyncAdvance s offset).ioCounter = s.ioCounter := by
  unfold resyncAdvance
  split_ifs <;> rfl

theorem insufficientE_spec (sX : ExtractorState) (r : Except ExtractError Unit)
    (s' : ExtractorState) (h : insufficientE sX = (r, s')) :
    r = Except.error .InsufficientData ∧ s'.ioCounter = sX.ioCounter - 1 := by
  cases h
  exact ⟨rfl, rfl⟩

/-- A leaf of the `resync` loop reporting `InsufficientData` from an
intermediate state with the entry `io_counter`. -/
theorem resyncLeaf (s sX : ExtractorState)
    (r : Except ExtractError Unit) (s' : ExtractorState)
    (h : insufficientE sX = (r, s')) (hio : sX.ioCounter = s.ioCounter) :
    (r = Except.ok () → s'.ioCounter = s.ioCounter) ∧
      (∀ e, r = Except.error e →
        e = ExtractError.InsufficientData ∧ s'.ioCounter = s.ioCounter - 1) := by
  obtain ⟨hr, hio'⟩ := insufficientE_spec sX r s' h
  subst hr
  constructor
  · intro hok
    cases hok
  · intro e he
    cases he
    exact ⟨rfl, by rw [hio', hio]⟩

/-- The `resync` loop never touches `io_counter` on success, and every
failure is an `InsufficientData` that decrements it by one. -/
theorem resyncGo_ioCounter : ∀ (fuel : Nat) (s : ExtractorState)
    (r : Except ExtractError Unit) (s' : ExtractorState),
    resyncGo fuel s = (r, s') →
    (r = Except.ok () → s'.ioCounter = s.ioCounter) ∧
      (∀ e, r = Except.error e →
        e = ExtractError.InsufficientData ∧ s'.ioCounter = s.ioCounter - 1) := by
  intro fuel
  induction fuel with
  | zero =>
    intro s r s' h
    exact resyncLeaf s s r s' h rfl
  | succ fuel ih =>
    intro s r s' h
    unfold resyncGo at h
    by_cases h1 : s.buffer.length - (if s.inited then 4 else 16) < 4
    · rw [if_pos h1] at h
      exact resyncLeaf s s r s' h rfl
    · rw [if_neg h1] at h
      rcases hfs : findSync ((s.buffer.drop 4).take
          (s.buffer.length - (if s.inited then 4 else 16) - 4)) with _ | offset <;>
        simp only [hfs] at h
      · exact resyncLeaf s _ r s' h rfl
      · rcases hm : majorSyncInfoLen (resyncAdvance s offset).buffer with _ | msil <;>
          simp only [hm] at h
        · exact resyncLeaf s _ r s' h (resyncAdvance_ioCounter s offset)
        · by_cases h2 : (resyncAdvance s offset).buffer.length < 4 + msil
          · rw [if_pos h2] at h
            exact resyncLeaf s _ r s' h (resyncAdvance_ioCounter s offset)
          · rw [if_neg h2] at h
            rcases ha : accessUnitLen (resyncAdvance s offset).buffer with _ | aul <;>
              simp only [ha] at h
            · exact resyncLeaf s _ r s' h (resyncAdvance_ioCounter s offset)
            · by_cases h3 : (resyncAdvance s offset).buffer.length < aul ∨ aul ≤ msil + 6
              · rw [if_pos h3] at h
                exact resyncLeaf s _ r s' h (resyncAdvance_ioCounter s offset)
              · rw [if_neg h3] at h
                by_cases h4 : crcReadOf (resyncAdvance s offset).buffer msil aul ≠
                    crcCalcOf (resyncAdvance s offset).buffer msil aul
                · rw [if_pos h4] at h
                  have hrec := ih _ r s' h
                  have hio : ({ resyncAdvance s offset with
                      buffer := (resyncAdvance s offset).buffer.drop aul } :
                        ExtractorState).ioCounter = s.ioCounter := by
                    show (resyncAdvance s offset).ioCounter = s.ioCounter
                    exact resyncAdvance_ioCounter s offset
                  refine ⟨fun hok => by rw [hrec.1 hok, hio],
                    fun e he => ⟨(hrec.2 e he).1, by rw [(hrec.2 e he).2, hio]⟩⟩
                · rw [if_neg h4] at h
                  cases h
                  refine ⟨fun _ => ?_, fun e he => by cases he⟩
                  show (resyncAdvance s offset).ioCounter = s.ioCounter
                  exact resyncAdvance_ioCounter s offset

/-- Same for `resync` itself. -/
theorem resync_ioCounter (s : ExtractorState) (r : Except ExtractError Unit)
    (s' : ExtractorState) (h : resync s = (r, s')) :
    (r = Except.ok () → s'.ioCounter = s.ioCounter) ∧
      (∀ e, r = Except.error e →
        e = ExtractError.InsufficientData ∧ s'.ioCounter = s.ioCounter - 1) := by
  unfold resync at h
  exact resyncGo_ioCounter (s.buffer.length + 1) { s with locked := false } r s' h

/-- The `next` loop never increases `io_counter`, and a yielded
`InsufficientData` decrements it by exactly one. -/
theorem nextGo_ioCounter : ∀ (fuel : Nat) (s : ExtractorState)
    (out : Option (Except ExtractError FrameM)) (s' : ExtractorState),
    nextGo fuel s = (out, s') →
    s'.ioCounter ≤ s.ioCounter ∧
      (out = some (Except.error .InsufficientData) →
        s'.ioCounter = s.ioCounter - 1) := by
  intro fuel
  induction fuel with
  | zero =>
    intro s out s' h
    cases h
    exact ⟨le_refl _, fun hc => by cases hc⟩
  | succ fuel ih =>
    intro s out s' h
    unfold nextGo at h
    rcases hstep : (if s.locked then (Except.ok (), s) else resync s) with ⟨e, s₁⟩
    rw [hstep] at h
    have hstep' :
        (e = Except.ok () → s₁.ioCounter = s.ioCounter) ∧
          (∀ e₀, e = Except.error e₀ → s₁.ioCounter = s.ioCounter - 1) := by
      by_cases hl : s.locked
      · rw [if_pos hl] at hstep
        cases hstep
        exact ⟨fun _ => rfl, fun e₀ he => by cases he⟩
      · rw [if_neg hl] at hstep
        have := resync_ioCounter s e s₁ hstep
        exact ⟨this.1, fun e₀ he => (this.2 e₀ he).2⟩
    cases e with
    | error e₀ =>
      simp only [] at h
      cases h
      exact ⟨by rw [hstep'.2 e₀ rfl]; omega, fun hc => by cases hc⟩
    | ok u =>
      cases u
      have hio₁ : s₁.ioCounter = s.ioCounter := hstep'.1 rfl
      simp only [] at h
      rcases hlb : lockedBody s₁ with _ | aul | _ <;> simp only [hlb] at h
      · cases h
        refine ⟨?_, fun _ => ?_⟩
        · show s₁.ioCounter - 1 ≤ s.ioCounter
          omega
        · show s₁.ioCounter - 1 = s.ioCounter - 1
          omega
      · cases h
        refine ⟨?_, fun hc => by cases hc⟩
        show s₁.ioCounter ≤ s.ioCounter
        omega
      · rcases hres : resync (recoverState s₁) with ⟨e₂, s₃⟩
        rw [hres] at h
        have hres' := resync_ioCounter (recoverState s₁) e₂ s₃ hres
        cases e₂ with
        | ok u₂ =>
          simp only [] at h
          have hio₃ : s₃.ioCounter = s.ioCounter := by
            rw [hres'.1 rfl, recoverState_ioCounter, hio₁]
          have := ih s₃ out s' h
          exact ⟨by omega, fun hc => by rw [this.2 hc, hio₃]⟩
        | error e₂ =>
          simp only [] at h
          cases h
          have := (hres'.2 e₂ rfl).2
          rw [recoverState_ioCounter, hio₁] at this
          exact ⟨by omega, fun hc => by cases hc⟩

/-- `isInsufficientItem` recognises exactly `Err(InsufficientData)`. -/
theorem isInsufficientItem_iff (o : Option (Except ExtractError FrameM)) :
    isInsufficientItem o = true ↔ o = some (Except.error .InsufficientData) := by
  match o with
  | none => simp [isInsufficientItem]
  | some (.ok f) => simp [isInsufficientItem]
  | some (.error e) =>
      cases e <;> simp [isInsufficientItem]

/-- Over any run, `io_counter` bounds the pending `InsufficientData`
yields. -/
theorem countRun_invariant : ∀ (ops : List ExOp) (s : ExtractorState),
    (countRun s ops).2 ≤ (countRun s ops).1 + s.ioCounter := by
  intro ops
  induction ops with
  | nil =>
    intro s
    simp [countRun]
  | cons op rest ih =>
    intro s
    cases op with
    | push d =>
      have := ih (pushBytes s d)
      simp only [countRun]
      show (countRun (pushBytes s d) rest).2 ≤
        (countRun (pushBytes s d) rest).1 + 1 + s.ioCounter
      have hio : (pushBytes s d).ioCounter = s.ioCounter + 1 := rfl
      omega
    | pull =>
      simp only [countRun]
      by_cases hi : isInsufficientItem (extractorNext s).1 = true
      · rw [if_pos hi]
        have hins := (isInsufficientItem_iff _).mp hi
        have hnz : s.ioCounter ≠ 0 := by
          intro h0
          have : extractorNext s = (none, s) := by
            unfold extractorNext
            rw [if_pos h0]
          rw [this] at hins
          cases hins
        have hdec : (extractorNext s).2.ioCounter = s.ioCounter - 1 := by
          rcases hn : extractorNext s with ⟨o, s₁⟩
          rw [hn] at hins
          unfold extractorNext at hn
          rw [if_neg hnz] at hn
          have := nextGo_ioCounter _ s o s₁ hn
          exact this.2 hins
        have := ih (extractorNext s).2
        simp only []
        omega
      · rw [if_neg hi]
        have hle : (extractorNext s).2.ioCounter ≤ s.ioCounter := by
          rcases hn : extractorNext s with ⟨o, s₁⟩
          unfold extractorNext at hn
          by_cases h0 : s.ioCounter = 0
          · rw [if_pos h0] at hn
            cases hn
            exact le_refl _
          · rw [if_neg h0] at hn
            exact (nextGo_ioCounter _ s o s₁ hn).1
        have := ih (extractorNext s).2
        omega

/-- C10 -- `next` returns `None` whenever `io_counter` is 0 (leaving
the state untouched); each `push_bytes` increments the counter by
exactly one; every call to `next` leaves the counter unchanged or
lower, and a yielded `Err(InsufficientData)` decrements it by exactly
one; hence over any operation sequence from a fresh extractor the
number of yielded `InsufficientData` results never exceeds the number
of `push_bytes` calls -- iteration without new pushes cannot loop on
`InsufficientData`. -/
theorem c10_io_counter :
    (∀ s : ExtractorState, s.ioCounter = 0 → extractorNext s = (none, s)) ∧
      (∀ (s : ExtractorState) (data : List Nat),
        (pushBytes s data).ioCounter = s.ioCounter + 1) ∧
      (∀ (s : ExtractorState) (r : Except ExtractError FrameM) (s' : ExtractorState),
        extractorNext s = (some r, s') →
          s'.ioCounter ≤ s.ioCounter ∧
            (r = Except.error .InsufficientData → s'.ioCounter + 1 = s.ioCounter)) ∧
      (∀ ops : List ExOp,
        (countRun extractorDefault ops).2 ≤ (countRun extractorDefault ops).1) := by
  refine ⟨?_, fun s data => rfl, ?_, ?_⟩
  · intro s h0
    unfold extractorNext
    rw [if_pos h0]
  · intro s r s' h
    unfold extractorNext at h
    by_cases h0 : s.ioCounter = 0
    · rw [if_pos h0] at h
      cases h
    · rw [if_neg h0] at h
      have := nextGo_ioCounter _ s (some r) s' h
      exact ⟨this.1, fun hr => by
        have := this.2 (by rw [hr])
        omega⟩
  · intro ops
    have := countRun_invariant ops extractorDefault
    have h0 : extractorDefault.ioCounter = 0 := rfl
    omega

/-- C10 witness for `c10_io_counter`. -/
theorem c10_io_counter_witness :
    extractorDefault.ioCounter = 0 → extractorNext extractorDefault =
      (none, extractorDefault) := by
  intro h
  exact c10_io_counter.1 extractorDefault h

set_option maxRecDepth 400000 in
/-- C5 -- pushing `EXAMPLE_DATA ++ [FF FF FF FF] ++ EXAMPLE_DATA ++
[FF FF FF FF]` into a fresh extractor and iterating yields exactly 4
`Ok` frames (84, 20, 84, 20 bytes) followed by one
`Err(InsufficientData)`, after which the iterator returns `None` (the
run is unchanged with surplus fuel); and every recoverable corruption
consumes exactly one byte -- the recovery step taken before the
iterator resyncs pops exactly one byte from the non-empty buffer of an
initialised extractor. -/
theorem c5_corruption_recovery :
    (runExtractor 20 c5Init).map summarize =
      [.frame 84, .frame 20, .frame 84, .frame 20, .err .InsufficientData] ∧
      (∀ s : ExtractorState, s.inited = true → s.buffer ≠ [] →
        (recoverState s).buffer = s.buffer.drop 1 ∧
          (recoverState s).buffer.length + 1 = s.buffer.length) := by
  constructor
  · decide
  · intro s hi hb
    unfold recoverState
    rw [if_pos hi]
    have hne : s.buffer.isEmpty = false := by
      rw [List.isEmpty_eq_false]
      exact hb
    rw [if_neg (by rw [hne]; exact fun hc => by cases hc)]
    refine ⟨rfl, ?_⟩
    have hpos : 0 < s.buffer.length := List.length_pos.mpr hb
    simp only [List.length_drop]
    omega

/-- C5 witness for `c5_corruption_recovery`. -/
theorem c5_corruption_recovery_witness :
    (recoverState ⟨[1, 2], none, true, true, 1, 0, 0, 0⟩).buffer =
        ([1, 2] : List Nat).drop 1 ∧
      (recoverState ⟨[1, 2], none, true, true, 1, 0, 0, 0⟩).buffer.length + 1 =
        ([1, 2] : List Nat).length := by
  exact c5_corruption_recovery.2 ⟨[1, 2], none, true, true, 1, 0, 0, 0⟩ rfl
    (by decide)

end TrueHd
